import Mathlib

set_option maxHeartbeats 1000000
set_option maxRecDepth 4000

/-!
# Decision Coach front end: shallow embedding and verification

This file embeds the client-side logic of the repository
(`src/unnamed/part_000`, `src/src/main.tsx`, `src/unnamed/part_002`) as
executable Lean definitions and proves the frozen claims about it.

Modelling conventions:
* machine numbers are `Int`/`Nat`; JSON values are the `Json` inductive below;
* the network and the JSON engine are the nondeterministic environment: a
  `fetch` either resolves with an `HttpResponse` (whose `parsed` field models
  the result of `JSON.parse` on its body text) or rejects with an error
  message;
* JavaScript `try`/`catch` is embedded with `Except String`;
* React state setters become fields of an explicit result record.
-/

/-- JSON values as produced by `JSON.parse`.  JavaScript `undefined` and
`null` are merged into `Json.null`: everywhere the embedded code inspects such
a value (truthiness tests, optional-chaining access, defaulting with the or
operator) the two behave identically. -/
inductive Json where
  | null : Json
  | bool : Bool → Json
  | num : Int → Json
  | str : String → Json
  | arr : List Json → Json
  | obj : List (String × Json) → Json

namespace Json

/-- JavaScript truthiness: `undefined`, `null`, `false`, `0`, and the empty
string are falsy, everything else (including every array and object) is
truthy. -/
def truthy : Json → Bool
  | null => false
  | bool b => b
  | num n => n != 0
  | str s => s != ""
  | arr _ => true
  | obj _ => true

/-- Property access `j?.k`: on an object, look the key up (first occurrence);
on anything else — including `null`, which models both JS `null` and
`undefined` under optional chaining — the result is `undefined` (here
`Json.null`). -/
def get : Json → String → Json
  | obj fields, k =>
    match fields.find? (fun kv => kv.1 == k) with
    | some kv => kv.2
    | none => null
  | _, _ => null

/-- Whether the value is the merged `null`/`undefined`; plain (non optional
chaining) property access on such a base throws a TypeError. -/
def isNull : Json → Bool
  | null => true
  | _ => false

/-- JavaScript String() coercion, used when a JSON field becomes an Error
message.  Primitives are coerced faithfully; the array/object cases are crude
placeholders, no claim exercises them. -/
def display : Json → String
  | null => "null"
  | bool true => "true"
  | bool false => "false"
  | num n => toString n
  | str s => s
  | arr _ => "[object Array]"
  | obj _ => "[object Object]"

end Json

/-- JavaScript `s || fallback` for strings: the fallback replaces the empty
string. -/
def jsOrS (s fallback : String) : String := if s = "" then fallback else s

/-- JavaScript `j || fallback` followed by String() coercion, as in
`new Error(data?.error || "HTTP " + status)`. -/
def jsOrDisplay (j : Json) (fallback : String) : String :=
  if j.truthy then j.display else fallback

/-- The JavaScript whitespace class: the characters matched by `\s` in a regex
and removed by `String.prototype.trim`. -/
def jsWs (c : Char) : Bool :=
  c.toNat = 9 || c.toNat = 10 || c.toNat = 11 || c.toNat = 12 || c.toNat = 13 ||
  c.toNat = 32 || c.toNat = 160 || c.toNat = 0x1680 ||
  (0x2000 ≤ c.toNat && c.toNat ≤ 0x200A) ||
  c.toNat = 0x2028 || c.toNat = 0x2029 || c.toNat = 0x202F || c.toNat = 0x205F ||
  c.toNat = 0x3000 || c.toNat = 0xFEFF

/-- The JavaScript digit class `\d`, that is `[0-9]`. -/
def jsDigit (c : Char) : Bool := 48 ≤ c.toNat && c.toNat ≤ 57

/-- The JavaScript `.` class without the `s` flag: any character except the
four line terminators LF, CR, U+2028 and U+2029 (note that `\s` does match
those four, so inside a line they can sit in the whitespace gaps of a regex
but never inside a `(.+?)` capture). -/
def jsDot (c : Char) : Bool :=
  !(c.toNat = 10 || c.toNat = 13 || c.toNat = 0x2028 || c.toNat = 0x2029)

/-- JavaScript `String.prototype.trim`: strip `jsWs` characters from both
ends. -/
def jsTrim (s : String) : String :=
  String.mk (((s.data.dropWhile jsWs).reverse.dropWhile jsWs).reverse)

/-- JavaScript `text.split("\n")` on the character list: split at every
newline, keeping empty segments. -/
def splitNl : List Char → List (List Char)
  | [] => [[]]
  | c :: rest =>
    if c = '\n' then [] :: splitNl rest
    else
      match splitNl rest with
      | [] => [[c]]
      | h :: t => (c :: h) :: t

/-- One HTTP response as observed by the client.  `parsed` models the result
of `JSON.parse` applied to `text` (`none` when the body is not valid JSON) and
`parseError` the SyntaxError message thrown in that case. -/
structure HttpResponse where
  ok : Bool
  status : Nat
  text : String
  parsed : Option Json
  parseError : String

/-- A fetch either resolves with a response or rejects (network or CORS
failure) with an Error whose message is `msg`. -/
inductive FetchOutcome where
  | success : HttpResponse → FetchOutcome
  | failure : (msg : String) → FetchOutcome

/-- An Except models the body of a JS `try` block; `jsTry` applies the
`catch` handler. -/
def jsTry {α : Type} (body : Except String α) (handler : String → Except String α) :
    Except String α :=
  match body with
  | Except.ok a => Except.ok a
  | Except.error e => handler e

/-- `JSON.parse(text)` inside a try block: yields the parsed value or throws
the SyntaxError message. -/
def jsonParse (r : HttpResponse) : Except String Json :=
  match r.parsed with
  | some j => Except.ok j
  | none => Except.error r.parseError

namespace Part000

/-- `type Criterion = \x7b criterion: string; weight?: number \x7d` from
part_000; a `none` weight is an absent key. -/
structure Criterion where
  criterion : String
  weight : Option Nat
  deriving DecidableEq, Repr

/-- `Number(m[2])` for the 1–3-digit capture group. -/
def digitsVal (ds : List Char) : Nat := ds.foldl (fun n c => n * 10 + (c.toNat - 48)) 0

/-- The suffix of the line after the lazy capture, matched against the rest of
the regex `^(.+?)\s*[:\-]\s*(\d{1,3})\s*$` of part_000 line 56: optional
whitespace, a `:` or `-` separator, optional whitespace, one to three digits,
optional trailing whitespace.  Because the whitespace, separator and digit
character classes are pairwise disjoint, the backtracking match is equivalent
to this deterministic scan.  Returns the numeric value of the digit group when
the suffix matches. -/
def tailWeight (r : List Char) : Option Nat :=
  match r.dropWhile jsWs with
  | [] => none
  | sep :: rest =>
    if sep = ':' || sep = '-' then
      if 1 ≤ ((rest.dropWhile jsWs).takeWhile jsDigit).length ∧
          ((rest.dropWhile jsWs).takeWhile jsDigit).length ≤ 3 ∧
          ((rest.dropWhile jsWs).dropWhile jsDigit).all jsWs then
        some (digitsVal ((rest.dropWhile jsWs).takeWhile jsDigit))
      else none
    else none

/-- The lazy `(.+?)` group: try captures of increasing length, returning the
first (shortest, nonempty) capture whose suffix matches the rest of the
regex.  The capture consists of `.`-class characters only: as soon as a line
terminator is reached, no longer capture is possible (every capture starts at
the beginning of the line), so the whole match fails. -/
def findSplit (pre : List Char) : List Char → Option (List Char × Nat)
  | [] => none
  | c :: rest =>
    if jsDot c then
      match tailWeight rest with
      | some w => some (pre ++ [c], w)
      | none => findSplit (pre ++ [c]) rest
    else none

/-- Lines 53–62 of part_000: a line matching the regex yields the trimmed
capture and `Number` of the digit group; any other line is a bare
criterion. -/
def parseCriterionLine (line : String) : Criterion :=
  match findSplit [] line.data with
  | some pw => { criterion := jsTrim (String.mk pw.1), weight := some pw.2 }
  | none => { criterion := line, weight := none }

/-- Lines 45–48 of part_000: split the textarea on newlines, trim each line,
drop the blank ones. -/
def nonBlankLines (text : String) : List String :=
  ((splitNl text.data).map (fun l => jsTrim (String.mk l))).filter (fun l => l != "")

/-- `parsedCriteria`, lines 44–64 of part_000: `undefined` when no non-blank
line remains, otherwise one `Criterion` per line. -/
def parsedCriteria (criteriaText : String) : Option (List Criterion) :=
  let lines := nonBlankLines criteriaText
  if lines = [] then none
  else some (lines.map parseCriterionLine)

/-- `JSON.stringify` of one criterion: an absent weight drops the key. -/
def Criterion.toJson (c : Criterion) : Json :=
  match c.weight with
  | some w => Json.obj [("criterion", Json.str c.criterion), ("weight", Json.num w)]
  | none => Json.obj [("criterion", Json.str c.criterion)]

/-- The POST body built at lines 82–88 of part_000; `JSON.stringify` omits the
`criteria` key when `parsedCriteria` is `undefined`. -/
def payload (d a b criteriaText userContext : String) : Json :=
  Json.obj
    ([("decision", Json.str d), ("optionA", Json.str a), ("optionB", Json.str b)] ++
     (match parsedCriteria criteriaText with
      | some cs => [("criteria", Json.arr (cs.map Criterion.toJson))]
      | none => []) ++
     [("userContext", Json.str (jsTrim userContext))])

/-- The component state written by one run of `submit` (part_000 lines
66–122), plus a flag recording whether `fetch` was called. -/
structure SubmitResult where
  error : String
  rawResponse : String
  result : Option Json
  fetched : Bool
  payloadSent : Option Json

/-- `submit`, lines 66–122 of part_000.  Note the non-2xx branch (lines
99–107): the `throw new Error(j.error || ...)` at line 103 happens inside the
inner `try`, so the bare `catch` at line 104 intercepts it and rethrows
`HTTP <status>: <text>` — on every non-2xx path, whether or not the body
parsed and carried an `error` field. -/
def submit (decision optionA optionB userContext criteriaText : String)
    (fetch : FetchOutcome) : SubmitResult :=
  let d := jsTrim decision
  let a := jsTrim optionA
  let b := jsTrim optionB
  if d = "" || a = "" || b = "" then
    { error := "Please fill Decision, Option A, and Option B.",
      rawResponse := "", result := none, fetched := false, payloadSent := none }
  else
    let sent := payload d a b criteriaText userContext
    match fetch with
    | FetchOutcome.failure msg =>
      { error := jsOrS msg "Unknown error", rawResponse := "", result := none,
        fetched := true, payloadSent := some sent }
    | FetchOutcome.success r =>
      let raw := r.text
      let body : Except String (String × Option Json) := do
        if r.ok = false then
          (jsTry
            (do
              let j ← jsonParse r
              Except.error (jsOrDisplay (j.get "error") ("HTTP " ++ toString r.status)))
            (fun _ => Except.error ("HTTP " ++ toString r.status ++ ": " ++ r.text)) :
            Except String Unit)
        let json ← jsonParse r
        let out := json.get "output"
        if out.truthy = false then
          pure ("API returned success, but missing \x27output\x27. Check Lambda response shape.",
                none)
        else
          pure ("", some out)
      match body with
      | Except.ok st =>
        { error := st.1, rawResponse := raw, result := st.2, fetched := true,
          payloadSent := some sent }
      | Except.error msg =>
        { error := jsOrS msg "Unknown error", rawResponse := raw, result := none,
          fetched := true, payloadSent := some sent }

end Part000

namespace MainApp

/-- `type Mode = "career" | "money"` from src/main.tsx. -/
inductive Mode where
  | career : Mode
  | money : Mode
  deriving DecidableEq, Repr

/-- `type Explain = "simple" | "normal"` from src/main.tsx. -/
inductive Explain where
  | simple : Explain
  | normal : Explain
  deriving DecidableEq, Repr

/-- `clamp(n, min, max)`, lines 68–70 of src/main.tsx:
`Math.max(min, Math.min(max, n))`. -/
def clamp (n lo hi : Int) : Int := max lo (min hi n)

/-- `clamp(n)` with the default bounds `min = 0`, `max = 100` of the source
signature. -/
def clampDefault (n : Int) : Int := clamp n 0 100

/-- The value `v` computed by the `Meter` component (line 105): both the
displayed `v/100` text and the bar width `v%` use it. -/
def meterValue (value : Int) : Int := clampDefault value

/-- One persisted history record (`HistoryItem`, lines 40–51).  Optional
fields hold `Json.null` when absent. -/
structure HistoryItem where
  id : String
  ts : Int
  mode : Mode
  explain : Explain
  prompt : String
  summary : Json
  recommendation : Json
  confidence : Json
  score : Json
  output : Json

/-- The sort comparator `(a, b) => b.ts - a.ts` (lines 159 and 235), as the
stable-sort precedence relation: `a` may stay before `b` exactly when the
comparator is nonpositive, that is `b.ts ≤ a.ts`. -/
def byTsDesc (a b : HistoryItem) : Bool := b.ts ≤ a.ts

/-- `persistHistory`, lines 163–167: keep the first 25 entries and write that
same list to both component state and localStorage. -/
def persistHistory (next : List HistoryItem) : List HistoryItem := next.take 25

/-- The history update performed by each successful submission (line 235):
`persistHistory([item, ...history].sort((a, b) => b.ts - a.ts))`. -/
def successHistoryUpdate (item : HistoryItem) (history : List HistoryItem) :
    List HistoryItem :=
  persistHistory ((item :: history).mergeSort byTsDesc)

/-- The share-link state `\x7b mode, explain, prompt \x7d` of
`encodeState`/`decodeState` (src/main.tsx lines 72–87). -/
structure ShareState where
  mode : Mode
  explain : Explain
  prompt : String
  deriving DecidableEq, Repr

/-- The JSON text of a `Mode` value. -/
def modeStr : Mode → String
  | Mode.career => "career"
  | Mode.money => "money"

/-- The JSON text of an `Explain` value. -/
def explainStr : Explain → String
  | Explain.simple => "simple"
  | Explain.normal => "normal"

/-- Lowercase hexadecimal digit, as emitted by JSON.stringify escapes. -/
def hexChar (n : Nat) : Char :=
  if n < 10 then Char.ofNat (48 + n) else Char.ofNat (87 + n)

/-- JSON.stringify escaping of one character (ECMA-262 QuoteJSONString):
quote, backslash and control characters are escaped, everything else is
emitted literally.  Lean strings contain no lone surrogates, so that case
cannot arise. -/
def escChar (c : Char) : List Char :=
  if c = '"' then ['\\', '"']
  else if c = '\\' then ['\\', '\\']
  else if c = '\x08' then ['\\', 'b']
  else if c = '\t' then ['\\', 't']
  else if c = '\n' then ['\\', 'n']
  else if c = '\x0c' then ['\\', 'f']
  else if c = '\r' then ['\\', 'r']
  else if c.toNat < 32 then
    ['\\', 'u', '0', '0', hexChar (c.toNat / 16), hexChar (c.toNat % 16)]
  else [c]

/-- JSON.stringify of a string value: quote and escape. -/
def quoteJson (s : String) : List Char := '"' :: s.data.flatMap escChar ++ ['"']

/-- `JSON.stringify(\x7b mode, explain, prompt \x7d)`: property order is the
insertion order mode, explain, prompt; no whitespace is emitted. -/
def stringifyState (st : ShareState) : List Char :=
  '\x7b' :: (quoteJson "mode" ++ ':' :: quoteJson (modeStr st.mode) ++
    ',' :: quoteJson "explain" ++ ':' :: quoteJson (explainStr st.explain) ++
    ',' :: quoteJson "prompt" ++ ':' :: quoteJson st.prompt) ++ ['\x7d']

/-- UTF-8 bytes of one scalar value, modelling what
`unescape(encodeURIComponent(s))` does per character. -/
def utf8Char (c : Char) : List Nat :=
  let n := c.toNat
  if n < 128 then [n]
  else if n < 2048 then [192 + n / 64, 128 + n % 64]
  else if n < 65536 then [224 + n / 4096, 128 + n / 64 % 64, 128 + n % 64]
  else [240 + n / 262144, 128 + n / 4096 % 64, 128 + n / 64 % 64, 128 + n % 64]

/-- `unescape(encodeURIComponent(s))`: the UTF-8 byte string of `s`. -/
def utf8Encode (cs : List Char) : List Nat := cs.flatMap utf8Char

/-- One step of UTF-8 decoding: from the leading byte `b` and the remaining
bytes, the scalar value of the first encoded character and the bytes after
it.  Lenient about continuation-byte markers (which `decodeURIComponent`
would check); on the image of `utf8Encode` the two agree. -/
def utf8Step (b : Nat) (bs : List Nat) : Option (Nat × List Nat) :=
  if b < 128 then some (b, bs)
  else if b < 224 then
    match bs with
    | b1 :: bs1 => some ((b - 192) * 64 + (b1 - 128), bs1)
    | [] => none
  else if b < 240 then
    match bs with
    | b1 :: b2 :: bs2 => some (((b - 224) * 64 + (b1 - 128)) * 64 + (b2 - 128), bs2)
    | _ => none
  else
    match bs with
    | b1 :: b2 :: b3 :: bs3 =>
      some ((((b - 240) * 64 + (b1 - 128)) * 64 + (b2 - 128)) * 64 + (b3 - 128), bs3)
    | _ => none

/-- Decoder for `decodeURIComponent(escape(bytes))`: repeatedly take one
UTF-8 sequence. -/
def utf8Decode : List Nat → Option (List Char)
  | [] => some []
  | b :: bs =>
    match h : utf8Step b bs with
    | none => none
    | some nr =>
      match utf8Decode nr.2 with
      | some cs => some (Char.ofNat nr.1 :: cs)
      | none => none
termination_by bs => bs.length
decreasing_by
  simp only [List.length_cons]
  have hle : nr.2.length ≤ bs.length := by
    unfold utf8Step at h
    split_ifs at h
    · cases h
      simp
    · rcases bs with _ | ⟨b1, bs1⟩
      · simp at h
      · cases h
        simp
    · rcases bs with _ | ⟨b1, _ | ⟨b2, bs2⟩⟩
      · simp at h
      · simp at h
      · cases h
        simp
        omega
    · rcases bs with _ | ⟨b1, _ | ⟨b2, _ | ⟨b3, bs3⟩⟩⟩
      · simp at h
      · simp at h
      · simp at h
      · cases h
        simp
        omega
  omega

/-- One digit of the btoa alphabet. -/
def b64Char (n : Nat) : Char :=
  if n < 26 then Char.ofNat (65 + n)
  else if n < 52 then Char.ofNat (97 + (n - 26))
  else if n < 62 then Char.ofNat (48 + (n - 52))
  else if n = 62 then '+'
  else '/'

/-- Value of one base64 digit, as read back by atob. -/
def b64Val (c : Char) : Nat :=
  if 65 ≤ c.toNat ∧ c.toNat ≤ 90 then c.toNat - 65
  else if 97 ≤ c.toNat ∧ c.toNat ≤ 122 then c.toNat - 97 + 26
  else if 48 ≤ c.toNat ∧ c.toNat ≤ 57 then c.toNat - 48 + 52
  else if c = '+' then 62
  else 63

/-- `btoa` on a byte string: each three-byte group becomes four digits; a
trailing group of one or two bytes is padded with `=`. -/
def btoa : List Nat → List Char
  | [] => []
  | [b0] => [b64Char (b0 / 4), b64Char (b0 % 4 * 16), '=', '=']
  | [b0, b1] =>
    [b64Char (b0 / 4), b64Char (b0 % 4 * 16 + b1 / 16), b64Char (b1 % 16 * 4), '=']
  | b0 :: b1 :: b2 :: bs =>
    b64Char (b0 / 4) :: b64Char (b0 % 4 * 16 + b1 / 16) ::
      b64Char (b1 % 16 * 4 + b2 / 64) :: b64Char (b2 % 64) :: btoa bs

/-- `atob`: four digits back to three bytes; only the final group may carry
`=` padding (one byte under `==`, two bytes under a single `=`). -/
def atob : List Char → Option (List Nat)
  | [] => some []
  | c0 :: c1 :: c2 :: c3 :: rest =>
    match rest with
    | [] =>
      if c2 = '=' ∧ c3 = '=' then some [b64Val c0 * 4 + b64Val c1 / 16]
      else if c3 = '=' then
        some [b64Val c0 * 4 + b64Val c1 / 16, b64Val c1 % 16 * 16 + b64Val c2 / 4]
      else
        some [b64Val c0 * 4 + b64Val c1 / 16, b64Val c1 % 16 * 16 + b64Val c2 / 4,
              b64Val c2 % 4 * 64 + b64Val c3]
    | _ :: _ =>
      match atob rest with
      | some bs =>
        some ((b64Val c0 * 4 + b64Val c1 / 16) :: (b64Val c1 % 16 * 16 + b64Val c2 / 4) ::
              (b64Val c2 % 4 * 64 + b64Val c3) :: bs)
      | none => none
  | _ => none

/-- The encoder replaceAll chain `+` to `-`, `/` to `_` (line 76). -/
def urlSafeChar (c : Char) : Char :=
  if c = '+' then '-' else if c = '/' then '_' else c

/-- The decoder replaceAll chain `-` to `+`, `_` to `/` (line 81). -/
def unUrlSafeChar (c : Char) : Char :=
  if c = '-' then '+' else if c = '_' then '/' else c

/-- The repadding `"===".slice((b64url.length + 3) % 4)` of line 81. -/
def padEq (len : Nat) : List Char := List.drop ((len + 3) % 4) ['=', '=', '=']

/-- The url-safe unpadded base64 text of a byte string: btoa followed by the
two replacements and the padding strip of `encodeState`. -/
def b64urlOf (bs : List Nat) : List Char :=
  ((btoa bs).map urlSafeChar).filter (fun c => c != '=')

/-- `encodeState`, lines 72–77: stringify, UTF-8, btoa, url-safe
replacements, strip padding. -/
def encodeState (st : ShareState) : String :=
  String.mk (b64urlOf (utf8Encode (stringifyState st)))

/-- Parse a JSON string literal body after the opening quote; `acc` holds the
characters read so far, reversed.  Handles the standard escapes; a `\u`
escape is decoded as one scalar value (surrogate-pair recombination is not
modelled — `encodeState` never emits `\u` escapes above 0x1F). -/
def parseStringBody : List Char → List Char → Option (String × List Char)
  | [], _ => none
  | '"' :: rest, acc => some (String.mk acc.reverse, rest)
  | '\\' :: rest, acc =>
    match rest with
    | '"' :: r => parseStringBody r ('"' :: acc)
    | '\\' :: r => parseStringBody r ('\\' :: acc)
    | '/' :: r => parseStringBody r ('/' :: acc)
    | 'b' :: r => parseStringBody r ('\x08' :: acc)
    | 'f' :: r => parseStringBody r ('\x0c' :: acc)
    | 'n' :: r => parseStringBody r ('\n' :: acc)
    | 'r' :: r => parseStringBody r ('\r' :: acc)
    | 't' :: r => parseStringBody r ('\t' :: acc)
    | 'u' :: h1 :: h2 :: h3 :: h4 :: r =>
      match hexVal h1, hexVal h2, hexVal h3, hexVal h4 with
      | some v1, some v2, some v3, some v4 =>
        parseStringBody r (Char.ofNat (((v1 * 16 + v2) * 16 + v3) * 16 + v4) :: acc)
      | _, _, _, _ => none
    | _ => none
  | c :: rest, acc =>
    if c.toNat < 32 then none else parseStringBody rest (c :: acc)
where
  /-- Value of one hexadecimal digit (either case), as JSON.parse accepts. -/
  hexVal (c : Char) : Option Nat :=
    if 48 ≤ c.toNat ∧ c.toNat ≤ 57 then some (c.toNat - 48)
    else if 97 ≤ c.toNat ∧ c.toNat ≤ 102 then some (c.toNat - 87)
    else if 65 ≤ c.toNat ∧ c.toNat ≤ 70 then some (c.toNat - 55)
    else none

/-- Parse one `"key":"value"` member. -/
def parseMember (cs : List Char) : Option ((String × String) × List Char) :=
  match cs with
  | '"' :: rest =>
    match parseStringBody rest [] with
    | some (k, ':' :: '"' :: restV) =>
      match parseStringBody restV [] with
      | some (v, afterV) => some ((k, v), afterV)
      | none => none
    | _ => none
  | _ => none

/-- Parse the member list of a JSON object with string values, up to and
including the closing brace; the fuel bounds the member count. -/
def parseObjMembers : Nat → List Char → Option (List (String × String) × List Char)
  | 0, _ => none
  | fuel + 1, cs =>
    match parseMember cs with
    | none => none
    | some (kv, rest) =>
      match rest with
      | ',' :: more =>
        match parseObjMembers fuel more with
        | some (l, r) => some (kv :: l, r)
        | none => none
      | '\x7d' :: after => some ([kv], after)
      | _ => none

/-- `JSON.parse` restricted to the grammar `encodeState` emits: one object
whose values are strings, without whitespace.  On that image it agrees with
the full parser; anything else is a parse failure. -/
def jsonParseStateText (cs : List Char) : Option Json :=
  match cs with
  | '\x7b' :: '\x7d' :: [] => some (Json.obj [])
  | '\x7b' :: rest =>
    match parseObjMembers cs.length rest with
    | some (kvs, []) => some (Json.obj (kvs.map (fun kv => (kv.1, Json.str kv.2))))
    | _ => none
  | _ => none

/-- Inverse of `modeStr` on the two legal mode strings. -/
def modeOfString (s : String) : Option Mode :=
  if s = "career" then some Mode.career
  else if s = "money" then some Mode.money
  else none

/-- Inverse of `explainStr` on the two legal explain strings. -/
def explainOfString (s : String) : Option Explain :=
  if s = "simple" then some Explain.simple
  else if s = "normal" then some Explain.normal
  else none

/-- Reads the three properties the load effect uses (`decoded.mode`,
`decoded.explain`, `decoded.prompt`), realizing the TypeScript cast of
`decodeState` on the values `encodeState` produces. -/
def stateOfJson (j : Json) : Option ShareState :=
  match j.get "mode", j.get "explain", j.get "prompt" with
  | Json.str m, Json.str e, Json.str p =>
    match modeOfString m, explainOfString e with
    | some mo, some ex => some { mode := mo, explain := ex, prompt := p }
    | _, _ => none
  | _, _, _ => none

/-- `decodeState`, lines 79–87: undo the url-safe replacements, repad, atob,
UTF-8 decode, JSON.parse, and read the state fields; every failure is the
caught-exception `null` of the source. -/
def decodeState (s : String) : Option ShareState :=
  let b64 := (s.data.map unUrlSafeChar) ++ padEq s.length
  match atob b64 with
  | none => none
  | some bytes =>
    match utf8Decode bytes with
    | none => none
    | some jsonChars =>
      match jsonParseStateText jsonChars with
      | none => none
      | some j => stateOfJson j

/-- Environment of one `analyze` run: the fetch outcome, the generated id and
the current `Date.now()`. -/
structure AnalyzeEnv where
  fetch : FetchOutcome
  uuid : String
  now : Int

/-- State after one `analyze` run: the error banner, the `output` state cell
(`Json.null` when never set to a real value), the history state, the
localStorage write (if any), and whether `fetch` was called. -/
structure AnalyzeResult where
  error : String
  output : Json
  history : List HistoryItem
  stored : Option (List HistoryItem)
  fetched : Bool

/-- Model of the TypeError message thrown by property access on `undefined`
or `null`; the engine text varies, the claims only rely on it being caught
and nonempty. -/
def typeErrorMsg : String := "TypeError: cannot read properties of undefined"

/-- Which summary field the history item records (line 229). -/
def summaryKey : Explain → String
  | Explain.simple => "simple_summary"
  | Explain.normal => "one_line_summary"

/-- `analyze`, lines 198–241 of src/main.tsx.  Control flow: validate the
trimmed prompt; fetch; `resp.json()` (rejects on a non-JSON body); on non-2xx
throw `data?.error || "HTTP " + status`; plain access `data.output` throws a
TypeError when `data` is `null`; `setOutput(out)`; building the history item
reads `out.simple_summary`/`out.one_line_summary`, which throws a TypeError
when `out` is `undefined`/`null`; only then `persistHistory`. -/
def analyze (mode : Mode) (explain : Explain) (prompt : String)
    (history : List HistoryItem) (env : AnalyzeEnv) : AnalyzeResult :=
  let p := jsTrim prompt
  if p = "" then
    { error := "Type your dilemma first.", output := Json.null, history := history,
      stored := none, fetched := false }
  else
    match env.fetch with
    | FetchOutcome.failure msg =>
      { error := jsOrS msg "Unknown error", output := Json.null, history := history,
        stored := none, fetched := true }
    | FetchOutcome.success r =>
      match r.parsed with
      | none =>
        { error := jsOrS r.parseError "Unknown error", output := Json.null,
          history := history, stored := none, fetched := true }
      | some data =>
        if r.ok = false then
          { error := jsOrS (jsOrDisplay (data.get "error") ("HTTP " ++ toString r.status))
                       "Unknown error",
            output := Json.null, history := history, stored := none, fetched := true }
        else if data.isNull then
          { error := jsOrS typeErrorMsg "Unknown error", output := Json.null,
            history := history, stored := none, fetched := true }
        else
          let out := data.get "output"
          if out.isNull then
            { error := jsOrS typeErrorMsg "Unknown error", output := out,
              history := history, stored := none, fetched := true }
          else
            let item : HistoryItem :=
              { id := env.uuid, ts := env.now, mode := mode, explain := explain, prompt := p,
                summary := out.get (summaryKey explain),
                recommendation := out.get "recommendation",
                confidence := out.get "confidence",
                score := out.get "decision_score",
                output := out }
            let next := successHistoryUpdate item history
            { error := "", output := out, history := next, stored := some next, fetched := true }

end MainApp

namespace Part002

/-- The clamped meter value of part_002 lines 23–24:
`Math.max(0, Math.min(100, value))`, again driving both the displayed
`v/100` text and the bar width. -/
def meterClamped (value : Int) : Int := max 0 (min 100 value)

end Part002

/-- All characters of the list are JavaScript whitespace. -/
def WsList (l : List Char) : Prop := ∀ c ∈ l, jsWs c = true

/-- All characters of the list are decimal digits. -/
def DigitList (l : List Char) : Prop := ∀ c ∈ l, jsDigit c = true

/-- All characters of the list are in the regex `.` class (no line
terminator). -/
def DotList (l : List Char) : Prop := ∀ c ∈ l, jsDot c = true

namespace Part000

/-- Declarative reading of the suffix of the criteria-line pattern: the list
splits into optional whitespace, a `:` or `-` separator, optional whitespace,
one to three digits whose value is `w`, and trailing whitespace. -/
def TailDecomp (r : List Char) (w : Nat) : Prop :=
  ∃ w1 sep w2 ds w3, r = w1 ++ sep :: (w2 ++ (ds ++ w3)) ∧ WsList w1 ∧
    (sep = ':' ∨ sep = '-') ∧ WsList w2 ∧ ds ≠ [] ∧ ds.length ≤ 3 ∧ DigitList ds ∧
    WsList w3 ∧ w = digitsVal ds

/-- Declarative reading of the whole weighted-line pattern from the claim: a
nonempty label of `i` characters — all matchable by the regex `.` class, so
free of line terminators — then separator, weight digits (of value `w`) and
whitespace as in `TailDecomp`. -/
def WeightedSplit (line : String) (i : Nat) (w : Nat) : Prop :=
  1 ≤ i ∧ DotList (line.data.take i) ∧ TailDecomp (line.data.drop i) w

end Part000

/-! ## Facts about the share-link pipeline -/

/-- Every Unicode scalar value is below 0x110000. -/
theorem charToNat_lt (c : Char) : c.toNat < 1114112 := by
  have h := c.valid
  unfold UInt32.isValidChar Nat.isValidChar at h
  rcases h with h | ⟨h1, h2⟩
  · simp [Char.toNat]
    omega
  · simp [Char.toNat]
    omega

/-- Rebuilding a string from its character list is the identity. -/
theorem stringMk_data (s : String) : String.mk s.data = s := rfl

namespace MainApp

/-- Base64 digits decode to their value, are never `=`, stay distinct from
`=` under the url-safe replacement, and the two replacements cancel. -/
theorem b64_digit_facts : ∀ n, n < 64 →
    b64Val (b64Char n) = n ∧ b64Char n ≠ '=' ∧ urlSafeChar (b64Char n) ≠ '=' ∧
    unUrlSafeChar (urlSafeChar (b64Char n)) = b64Char n := by decide

theorem urlSafeChar_eqsign : urlSafeChar '=' = '=' := rfl

/-- The first digit btoa emits for a nonempty byte string. -/
theorem btoa_head (r : Nat) (rs : List Nat) :
    ∃ tail, btoa (r :: rs) = b64Char (r / 4) :: tail := by
  match rs with
  | [] => exact ⟨_, rfl⟩
  | [b1] => exact ⟨_, rfl⟩
  | b1 :: b2 :: bs => exact ⟨_, rfl⟩

/-- Decoding inverts the url-safe base64 encoding: mapping the replacements
back and repadding with the `"===".slice` formula, `atob` recovers the
original bytes. -/
theorem atob_b64urlOf (bs : List Nat) :
    (∀ b ∈ bs, b < 256) →
    atob ((b64urlOf bs).map unUrlSafeChar ++ padEq (b64urlOf bs).length) = some bs := by
  induction bs using btoa.induct
  · intro _
    rfl
  · next b0 =>
    intro h
    have hb0 : b0 < 256 := h b0 (by simp)
    obtain ⟨hv0, hne0, hs0, hu0⟩ := b64_digit_facts (b0 / 4) (by omega)
    obtain ⟨hv1, hne1, hs1, hu1⟩ := b64_digit_facts (b0 % 4 * 16) (by omega)
    have e1 : b64urlOf [b0] =
        [urlSafeChar (b64Char (b0 / 4)), urlSafeChar (b64Char (b0 % 4 * 16))] := by
      simp [b64urlOf, btoa, List.filter_cons, bne_iff_ne, hs0, hs1, urlSafeChar_eqsign]
    rw [e1]
    simp only [List.map, hu0, hu1, List.length_cons, List.length_nil]
    show atob [b64Char (b0 / 4), b64Char (b0 % 4 * 16), '=', '='] = some [b0]
    simp [atob, hv0, hv1]
    omega
  · next b0 b1 =>
    intro h
    have hb0 : b0 < 256 := h b0 (by simp)
    have hb1 : b1 < 256 := h b1 (by simp)
    obtain ⟨hv0, hne0, hs0, hu0⟩ := b64_digit_facts (b0 / 4) (by omega)
    obtain ⟨hv1, hne1, hs1, hu1⟩ := b64_digit_facts (b0 % 4 * 16 + b1 / 16) (by omega)
    obtain ⟨hv2, hne2, hs2, hu2⟩ := b64_digit_facts (b1 % 16 * 4) (by omega)
    have e1 : b64urlOf [b0, b1] =
        [urlSafeChar (b64Char (b0 / 4)), urlSafeChar (b64Char (b0 % 4 * 16 + b1 / 16)),
         urlSafeChar (b64Char (b1 % 16 * 4))] := by
      simp [b64urlOf, btoa, List.filter_cons, bne_iff_ne, hs0, hs1, hs2, urlSafeChar_eqsign]
    rw [e1]
    simp only [List.map, hu0, hu1, hu2, List.length_cons, List.length_nil]
    show atob [b64Char (b0 / 4), b64Char (b0 % 4 * 16 + b1 / 16), b64Char (b1 % 16 * 4), '='] =
      some [b0, b1]
    simp [atob, hne2, hv0, hv1, hv2]
    omega
  · next b0 b1 b2 rest ih =>
    intro h
    have hb0 : b0 < 256 := h b0 (by simp)
    have hb1 : b1 < 256 := h b1 (by simp)
    have hb2 : b2 < 256 := h b2 (by simp)
    have hrest : ∀ b ∈ rest, b < 256 := fun b hb => h b (by simp [hb])
    obtain ⟨hv0, hne0, hs0, hu0⟩ := b64_digit_facts (b0 / 4) (by omega)
    obtain ⟨hv1, hne1, hs1, hu1⟩ := b64_digit_facts (b0 % 4 * 16 + b1 / 16) (by omega)
    obtain ⟨hv2, hne2, hs2, hu2⟩ := b64_digit_facts (b1 % 16 * 4 + b2 / 64) (by omega)
    obtain ⟨hv3, hne3, hs3, hu3⟩ := b64_digit_facts (b2 % 64) (by omega)
    have e1 : b64urlOf (b0 :: b1 :: b2 :: rest) =
        urlSafeChar (b64Char (b0 / 4)) :: urlSafeChar (b64Char (b0 % 4 * 16 + b1 / 16)) ::
        urlSafeChar (b64Char (b1 % 16 * 4 + b2 / 64)) :: urlSafeChar (b64Char (b2 % 64)) ::
        b64urlOf rest := by
      simp [b64urlOf, btoa, List.filter_cons, bne_iff_ne, hs0, hs1, hs2, hs3]
    rw [e1]
    simp only [List.map, hu0, hu1, hu2, hu3, List.length_cons]
    have epad : padEq ((b64urlOf rest).length + 1 + 1 + 1 + 1) =
        padEq (b64urlOf rest).length := by
      simp only [padEq]
      congr 1
      omega
    rw [List.cons_append, List.cons_append, List.cons_append, List.cons_append, epad]
    cases rest with
    | nil =>
      show atob [b64Char (b0 / 4), b64Char (b0 % 4 * 16 + b1 / 16),
        b64Char (b1 % 16 * 4 + b2 / 64), b64Char (b2 % 64)] = some [b0, b1, b2]
      simp [atob, hne2, hne3, hv0, hv1, hv2, hv3]
      omega
    | cons r rs =>
      specialize ih (fun b hb => hrest b hb)
      have hrlt : r < 256 := hrest r (by simp)
      obtain ⟨hvr, hner, hsr, hur⟩ := b64_digit_facts (r / 4) (by omega)
      obtain ⟨tail, htail⟩ := btoa_head r rs
      have e2 : b64urlOf (r :: rs) = urlSafeChar (b64Char (r / 4)) ::
          ((tail.map urlSafeChar).filter (fun c => c != '=')) := by
        simp [b64urlOf, htail, List.filter_cons, bne_iff_ne, hsr]
      have hmap : (b64urlOf (r :: rs)).map unUrlSafeChar = b64Char (r / 4) ::
          (((tail.map urlSafeChar).filter (fun c => c != '=')).map unUrlSafeChar) := by
        rw [e2]
        simp [hur]
      rw [hmap, List.cons_append] at ih ⊢
      simp only [atob]
      rw [ih]
      simp only [hv0, hv1, hv2, hv3, Option.some.injEq, List.cons.injEq, and_true]
      refine ⟨by omega, by omega, by omega⟩

/-- UTF-8 bytes are bytes. -/
theorem utf8Char_lt (c : Char) : ∀ b ∈ utf8Char c, b < 256 := by
  intro b hb
  have hc := charToNat_lt c
  simp only [utf8Char] at hb
  split_ifs at hb <;> simp at hb <;> omega

/-- Decoding one encoded character from the front of a byte string. -/
theorem utf8Decode_encode_cons (c : Char) (rest : List Nat) :
    utf8Decode (utf8Char c ++ rest) = Option.map (fun cs => c :: cs) (utf8Decode rest) := by
  have hc := charToNat_lt c
  by_cases h1 : c.toNat < 128
  · have e : utf8Char c = [c.toNat] := by simp [utf8Char, h1]
    have hs : utf8Step c.toNat rest = some (c.toNat, rest) := by simp [utf8Step, h1]
    rw [e, List.singleton_append, utf8Decode]
    split
    · next heq =>
      rw [hs] at heq
      cases heq
    · next nr heq =>
      rw [hs] at heq
      cases heq
      cases hrest : utf8Decode rest with
      | none => rfl
      | some cs =>
        show some (Char.ofNat c.toNat :: cs) = some (c :: cs)
        rw [Char.ofNat_toNat]
  · by_cases h2 : c.toNat < 2048
    · have e : utf8Char c = [192 + c.toNat / 64, 128 + c.toNat % 64] := by
        simp [utf8Char, h1, h2]
      have hs : utf8Step (192 + c.toNat / 64) ((128 + c.toNat % 64) :: rest) =
          some ((192 + c.toNat / 64 - 192) * 64 + (128 + c.toNat % 64 - 128), rest) := by
        have d1 : ¬ (192 + c.toNat / 64 < 128) := by omega
        have d2 : 192 + c.toNat / 64 < 224 := by omega
        simp [utf8Step, d1, d2]
      have hA : (192 + c.toNat / 64 - 192) * 64 + (128 + c.toNat % 64 - 128) = c.toNat := by
        omega
      rw [e, List.cons_append, List.cons_append, List.nil_append, utf8Decode]
      split
      · next heq =>
        rw [hs] at heq
        cases heq
      · next nr heq =>
        rw [hs] at heq
        cases heq
        cases hrest : utf8Decode rest with
        | none => rfl
        | some cs =>
          show some (Char.ofNat ((192 + c.toNat / 64 - 192) * 64 +
            (128 + c.toNat % 64 - 128)) :: cs) = some (c :: cs)
          rw [hA, Char.ofNat_toNat]
    · by_cases h3 : c.toNat < 65536
      · have e : utf8Char c =
            [224 + c.toNat / 4096, 128 + c.toNat / 64 % 64, 128 + c.toNat % 64] := by
          simp [utf8Char, h1, h2, h3]
        have hs : utf8Step (224 + c.toNat / 4096)
            ((128 + c.toNat / 64 % 64) :: (128 + c.toNat % 64) :: rest) =
            some (((224 + c.toNat / 4096 - 224) * 64 + (128 + c.toNat / 64 % 64 - 128)) * 64 +
              (128 + c.toNat % 64 - 128), rest) := by
          have d1 : ¬ (224 + c.toNat / 4096 < 128) := by omega
          have d2 : ¬ (224 + c.toNat / 4096 < 224) := by omega
          have d3 : 224 + c.toNat / 4096 < 240 := by omega
          simp [utf8Step, d1, d2, d3]
        have hA : ((224 + c.toNat / 4096 - 224) * 64 + (128 + c.toNat / 64 % 64 - 128)) * 64 +
            (128 + c.toNat % 64 - 128) = c.toNat := by omega
        rw [e, List.cons_append, List.cons_append, List.cons_append, List.nil_append,
          utf8Decode]
        split
        · next heq =>
          rw [hs] at heq
          cases heq
        · next nr heq =>
          rw [hs] at heq
          cases heq
          cases hrest : utf8Decode rest with
          | none => rfl
          | some cs =>
            show some (Char.ofNat (((224 + c.toNat / 4096 - 224) * 64 +
              (128 + c.toNat / 64 % 64 - 128)) * 64 + (128 + c.toNat % 64 - 128)) :: cs) =
              some (c :: cs)
            rw [hA, Char.ofNat_toNat]
      · have e : utf8Char c = [240 + c.toNat / 262144, 128 + c.toNat / 4096 % 64,
            128 + c.toNat / 64 % 64, 128 + c.toNat % 64] := by
          simp [utf8Char, h1, h2, h3]
        have hs : utf8Step (240 + c.toNat / 262144)
            ((128 + c.toNat / 4096 % 64) :: (128 + c.toNat / 64 % 64) ::
              (128 + c.toNat % 64) :: rest) =
            some ((((240 + c.toNat / 262144 - 240) * 64 + (128 + c.toNat / 4096 % 64 - 128)) *
              64 + (128 + c.toNat / 64 % 64 - 128)) * 64 + (128 + c.toNat % 64 - 128),
              rest) := by
          have d1 : ¬ (240 + c.toNat / 262144 < 128) := by omega
          have d2 : ¬ (240 + c.toNat / 262144 < 224) := by omega
          have d3 : ¬ (240 + c.toNat / 262144 < 240) := by omega
          simp [utf8Step, d1, d2, d3]
        have hA : (((240 + c.toNat / 262144 - 240) * 64 + (128 + c.toNat / 4096 % 64 - 128)) *
            64 + (128 + c.toNat / 64 % 64 - 128)) * 64 + (128 + c.toNat % 64 - 128) =
            c.toNat := by omega
        rw [e, List.cons_append, List.cons_append, List.cons_append, List.cons_append,
          List.nil_append, utf8Decode]
        split
        · next heq =>
          rw [hs] at heq
          cases heq
        · next nr heq =>
          rw [hs] at heq
          cases heq
          cases hrest : utf8Decode rest with
          | none => rfl
          | some cs =>
            show some (Char.ofNat ((((240 + c.toNat / 262144 - 240) * 64 +
              (128 + c.toNat / 4096 % 64 - 128)) * 64 + (128 + c.toNat / 64 % 64 - 128)) * 64 +
              (128 + c.toNat % 64 - 128)) :: cs) = some (c :: cs)
            rw [hA, Char.ofNat_toNat]

/-- The UTF-8 decoder inverts the encoder. -/
theorem utf8Decode_encode (cs : List Char) : utf8Decode (utf8Encode cs) = some cs := by
  induction cs with
  | nil =>
    show utf8Decode [] = some []
    rw [utf8Decode]
  | cons c rest ih =>
    rw [utf8Encode, List.flatMap_cons]
    show utf8Decode (utf8Char c ++ rest.flatMap utf8Char) = some (c :: rest)
    rw [utf8Decode_encode_cons]
    show Option.map _ (utf8Decode (utf8Encode rest)) = _
    rw [ih]
    rfl

/-- Hexadecimal digits emitted by the stringifier are read back. -/
theorem hexVal_hexChar : ∀ d, d < 16 → parseStringBody.hexVal (hexChar d) = some d := by
  decide

/-- The string parser inverts JSON.stringify escaping: reading the escaped
characters followed by a closing quote yields the original string and leaves
the rest untouched. -/
theorem parseStringBody_esc (cs : List Char) : ∀ (acc rest : List Char),
    parseStringBody (cs.flatMap escChar ++ '"' :: rest) acc =
      some (String.mk (acc.reverse ++ cs), rest) := by
  induction cs with
  | nil =>
    intro acc rest
    show parseStringBody ('"' :: rest) acc = _
    rw [parseStringBody]
    simp
  | cons c cs ih =>
    intro acc rest
    have hstep : escChar c ++ (cs.flatMap escChar ++ '"' :: rest) =
        (c :: cs).flatMap escChar ++ '"' :: rest := by
      simp [List.flatMap_cons, List.append_assoc]
    rw [← hstep]
    by_cases h1 : c = '"'
    · subst h1
      show parseStringBody ('\\' :: '"' :: (cs.flatMap escChar ++ '"' :: rest)) acc = _
      rw [parseStringBody]
      rw [ih]
      simp
    · by_cases h2 : c = '\\'
      · subst h2
        show parseStringBody ('\\' :: '\\' :: (cs.flatMap escChar ++ '"' :: rest)) acc = _
        rw [parseStringBody]
        rw [ih]
        simp
      · by_cases h3 : c = '\x08'
        · subst h3
          show parseStringBody ('\\' :: 'b' :: (cs.flatMap escChar ++ '"' :: rest)) acc = _
          rw [parseStringBody]
          rw [ih]
          simp
        · by_cases h4 : c = '\t'
          · subst h4
            show parseStringBody ('\\' :: 't' :: (cs.flatMap escChar ++ '"' :: rest)) acc = _
            rw [parseStringBody]
            rw [ih]
            simp
          · by_cases h5 : c = '\n'
            · subst h5
              show parseStringBody ('\\' :: 'n' :: (cs.flatMap escChar ++ '"' :: rest)) acc = _
              rw [parseStringBody]
              rw [ih]
              simp
            · by_cases h6 : c = '\x0c'
              · subst h6
                show parseStringBody ('\\' :: 'f' :: (cs.flatMap escChar ++ '"' :: rest)) acc =
                  _
                rw [parseStringBody]
                rw [ih]
                simp
              · by_cases h7 : c = '\r'
                · subst h7
                  show parseStringBody ('\\' :: 'r' :: (cs.flatMap escChar ++ '"' :: rest))
                    acc = _
                  rw [parseStringBody]
                  rw [ih]
                  simp
                · by_cases h8 : c.toNat < 32
                  · have he : escChar c = ['\\', 'u', '0', '0', hexChar (c.toNat / 16),
                        hexChar (c.toNat % 16)] := by
                      simp [escChar, h1, h2, h3, h4, h5, h6, h7, h8]
                    rw [he]
                    show parseStringBody ('\\' :: 'u' :: '0' :: '0' :: hexChar (c.toNat / 16) ::
                      hexChar (c.toNat % 16) :: (cs.flatMap escChar ++ '"' :: rest)) acc = _
                    rw [parseStringBody]
                    have e0 : parseStringBody.hexVal '0' = some 0 := rfl
                    have eh : parseStringBody.hexVal (hexChar (c.toNat / 16)) =
                        some (c.toNat / 16) := hexVal_hexChar _ (by omega)
                    have el : parseStringBody.hexVal (hexChar (c.toNat % 16)) =
                        some (c.toNat % 16) := hexVal_hexChar _ (by omega)
                    rw [e0, eh, el]
                    show parseStringBody (cs.flatMap escChar ++ '"' :: rest)
                      (Char.ofNat (((0 * 16 + 0) * 16 + c.toNat / 16) * 16 + c.toNat % 16) ::
                        acc) = _
                    have hv : ((0 * 16 + 0) * 16 + c.toNat / 16) * 16 + c.toNat % 16 =
                        c.toNat := by omega
                    rw [hv, Char.ofNat_toNat, ih]
                    simp
                  · have he : escChar c = [c] := by
                      simp [escChar, h1, h2, h3, h4, h5, h6, h7, h8]
                    rw [he]
                    show parseStringBody (c :: (cs.flatMap escChar ++ '"' :: rest)) acc = _
                    rw [parseStringBody]
                    · rw [if_neg (by omega), ih]
                      simp
                    · exact h1
                    · exact h2

/-- Reassociation of one quoted string before a following suffix. -/
theorem quoteJson_append (s : String) (x : List Char) :
    quoteJson s ++ x = '"' :: (s.data.flatMap escChar ++ '"' :: x) := by
  simp [quoteJson, List.append_assoc]

/-- Reading back one emitted `"key":"value"` member. -/
theorem parseMember_emit (k v : String) (rest : List Char) :
    parseMember (quoteJson k ++ ':' :: (quoteJson v ++ rest)) = some ((k, v), rest) := by
  rw [quoteJson_append]
  show parseMember ('"' :: (k.data.flatMap escChar ++ '"' :: (':' :: (quoteJson v ++
    rest)))) = _
  rw [parseMember]
  rw [parseStringBody_esc]
  simp only [List.reverse_nil, List.nil_append, stringMk_data]
  rw [quoteJson_append]
  show (match parseStringBody (v.data.flatMap escChar ++ '"' :: rest) [] with
    | some (v', afterV) => some ((k, v'), afterV)
    | none => none) = _
  rw [parseStringBody_esc]
  simp [stringMk_data]

/-- Reading back the three members the state stringifier emits. -/
theorem parseObjMembers_state (m e p : String) (fuel : Nat) (hf : 3 ≤ fuel) :
    parseObjMembers fuel (quoteJson "mode" ++ ':' :: (quoteJson m ++ ',' ::
      (quoteJson "explain" ++ ':' :: (quoteJson e ++ ',' ::
        (quoteJson "prompt" ++ ':' :: (quoteJson p ++ ['\x7d'])))))) =
      some ([("mode", m), ("explain", e), ("prompt", p)], []) := by
  obtain ⟨f, rfl⟩ : ∃ f, fuel = f + 3 := ⟨fuel - 3, by omega⟩
  rw [parseObjMembers, parseMember_emit]
  show (match parseObjMembers (f + 2) (quoteJson "explain" ++ ':' :: (quoteJson e ++ ',' ::
      (quoteJson "prompt" ++ ':' :: (quoteJson p ++ ['\x7d'])))) with
    | some (l, r) => some (("mode", m) :: l, r)
    | none => none) = _
  rw [parseObjMembers, parseMember_emit]
  show (match (match parseObjMembers (f + 1) (quoteJson "prompt" ++ ':' ::
      (quoteJson p ++ ['\x7d'])) with
    | some (l, r) => some (("explain", e) :: l, r)
    | none => none) with
    | some (l, r) => some (("mode", m) :: l, r)
    | none => none) = _
  rw [parseObjMembers, parseMember_emit]
  rfl

/-- The restricted JSON.parse model recovers the stringified state object. -/
theorem jsonParse_stringifyState (st : ShareState) :
    jsonParseStateText (stringifyState st) =
      some (Json.obj [("mode", Json.str (modeStr st.mode)),
        ("explain", Json.str (explainStr st.explain)), ("prompt", Json.str st.prompt)]) := by
  have hshape : stringifyState st = '\x7b' :: (quoteJson "mode" ++ ':' ::
      (quoteJson (modeStr st.mode) ++ ',' :: (quoteJson "explain" ++ ':' ::
        (quoteJson (explainStr st.explain) ++ ',' ::
          (quoteJson "prompt" ++ ':' :: (quoteJson st.prompt ++ ['\x7d'])))))) := by
    simp [stringifyState, List.append_assoc]
  have hY : quoteJson "mode" ++ ':' :: (quoteJson (modeStr st.mode) ++ ',' ::
      (quoteJson "explain" ++ ':' :: (quoteJson (explainStr st.explain) ++ ',' ::
        (quoteJson "prompt" ++ ':' :: (quoteJson st.prompt ++ ['\x7d']))))) =
      '"' :: (['m', 'o', 'd', 'e'].flatMap escChar ++ '"' :: (':' ::
        (quoteJson (modeStr st.mode) ++ ',' :: (quoteJson "explain" ++ ':' ::
          (quoteJson (explainStr st.explain) ++ ',' ::
            (quoteJson "prompt" ++ ':' :: (quoteJson st.prompt ++ ['\x7d'])))))))  := by
    rw [quoteJson_append]
  have hlen : 3 ≤ ('\x7b' :: (quoteJson "mode" ++ ':' ::
      (quoteJson (modeStr st.mode) ++ ',' :: (quoteJson "explain" ++ ':' ::
        (quoteJson (explainStr st.explain) ++ ',' ::
          (quoteJson "prompt" ++ ':' :: (quoteJson st.prompt ++ ['\x7d']))))))).length := by
    rw [hY]
    have hm : escChar 'm' = ['m'] := rfl
    have ho : escChar 'o' = ['o'] := rfl
    have hd : escChar 'd' = ['d'] := rfl
    have he2 : escChar 'e' = ['e'] := rfl
    simp [hm, ho, hd, he2]
  have hmain := parseObjMembers_state (modeStr st.mode) (explainStr st.explain) st.prompt
    (List.length ('\x7b' :: (quoteJson "mode" ++ ':' ::
      (quoteJson (modeStr st.mode) ++ ',' :: (quoteJson "explain" ++ ':' ::
        (quoteJson (explainStr st.explain) ++ ',' ::
          (quoteJson "prompt" ++ ':' :: (quoteJson st.prompt ++ ['\x7d'])))))))) hlen
  rw [hshape, hY]
  simp only [jsonParseStateText]
  split
  · next heq => simp at heq
  · next rest heq =>
    injection heq with h1 h2
    subst h2
    rw [← hY, hmain]
    rfl
  · next x hne1 hne2 =>
    exact absurd rfl (hne2 _)

/-- Field extraction undoes the emitted object. -/
theorem stateOfJson_emit (st : ShareState) :
    stateOfJson (Json.obj [("mode", Json.str (modeStr st.mode)),
      ("explain", Json.str (explainStr st.explain)), ("prompt", Json.str st.prompt)]) =
      some st := by
  rcases st with ⟨m, e, p⟩
  cases m <;> cases e <;> rfl

end MainApp

/-! ## Facts about criteria parsing -/

theorem ws_not_digit {c : Char} (h : jsWs c = true) : jsDigit c = false := by
  simp [jsWs] at h
  simp [jsDigit]
  omega

theorem digit_not_ws {c : Char} (h : jsDigit c = true) : jsWs c = false := by
  simp [jsDigit] at h
  simp [jsWs]
  omega

theorem dropWhile_append_all {p : Char → Bool} (l1 l2 : List Char)
    (h : ∀ c ∈ l1, p c = true) : (l1 ++ l2).dropWhile p = l2.dropWhile p := by
  induction l1 with
  | nil => simp
  | cons c cs ih =>
    have hc : p c = true := h c (by simp)
    simp only [List.cons_append, List.dropWhile_cons, hc, if_pos]
    exact ih (fun d hd => h d (by simp [hd]))

theorem takeWhile_append_stop {p : Char → Bool} (l1 l2 : List Char)
    (h1 : ∀ c ∈ l1, p c = true) (h2 : ∀ c ∈ l2, p c = false) :
    (l1 ++ l2).takeWhile p = l1 ∧ (l1 ++ l2).dropWhile p = l2 := by
  induction l1 with
  | nil =>
    simp only [List.nil_append]
    cases l2 with
    | nil => simp
    | cons d ds =>
      have hd : p d = false := h2 d (by simp)
      simp [List.takeWhile_cons, List.dropWhile_cons, hd]
  | cons c cs ih =>
    have hc : p c = true := h1 c (by simp)
    have := ih (fun d hd => h1 d (by simp [hd]))
    simp [List.takeWhile_cons, List.dropWhile_cons, hc, this.1, this.2]

namespace Part000

/-- The executable tail matcher agrees with the declarative decomposition. -/
theorem tailWeight_iff (r : List Char) (w : Nat) :
    tailWeight r = some w ↔ TailDecomp r w := by
  constructor
  · intro h
    unfold tailWeight at h
    split at h
    · cases h
    · next sep rest hdw =>
      split_ifs at h with hsep hguard
      · simp only [Option.some.injEq] at h
        obtain ⟨hg1, hg2, hg3⟩ := hguard
        simp only [List.all_eq_true] at hg3
        refine ⟨r.takeWhile jsWs, sep, rest.takeWhile jsWs,
          (rest.dropWhile jsWs).takeWhile jsDigit,
          (rest.dropWhile jsWs).dropWhile jsDigit, ?_, ?_, ?_, ?_, ?_, ?_, ?_, ?_, ?_⟩
        · have e1 : rest.takeWhile jsWs ++ ((rest.dropWhile jsWs).takeWhile jsDigit ++
              (rest.dropWhile jsWs).dropWhile jsDigit) = rest := by
            rw [List.takeWhile_append_dropWhile jsDigit (rest.dropWhile jsWs),
              List.takeWhile_append_dropWhile jsWs rest]
          rw [e1]
          conv_lhs => rw [← List.takeWhile_append_dropWhile jsWs r]
          rw [hdw]
        · intro c hc
          exact List.mem_takeWhile_imp hc
        · simpa using hsep
        · intro c hc
          exact List.mem_takeWhile_imp hc
        · intro hnil
          rw [hnil] at hg1
          simp at hg1
        · exact hg2
        · intro c hc
          exact List.mem_takeWhile_imp hc
        · exact hg3
        · exact h.symm
  · rintro ⟨w1, sep, w2, ds, w3, hr, hw1, hsep, hw2, hne, hlen3, hds, hw3, rfl⟩
    have hsep_nws : jsWs sep = false := by
      rcases hsep with rfl | rfl <;> decide
    have hw3d : ∀ c ∈ w3, jsDigit c = false := fun c hc => ws_not_digit (hw3 c hc)
    obtain ⟨htake, hdrop⟩ := takeWhile_append_stop ds w3 hds hw3d
    have hdsws : ∀ c ∈ ds, jsWs c = false := fun c hc => digit_not_ws (hds c hc)
    have hdw : r.dropWhile jsWs = sep :: (w2 ++ (ds ++ w3)) := by
      rw [hr, dropWhile_append_all _ _ hw1]
      simp [List.dropWhile_cons, hsep_nws]
    have hafter : (w2 ++ (ds ++ w3)).dropWhile jsWs = ds ++ w3 := by
      rw [dropWhile_append_all _ _ hw2]
      cases ds with
      | nil => exact absurd rfl hne
      | cons d ds' =>
        have hd : jsWs d = false := hdsws d (by simp)
        simp [List.dropWhile_cons, hd]
    have hsep_left : sep = ':' ∨ sep = '-' := hsep
    have hlen1 : 1 ≤ ds.length := by
      cases ds with
      | nil => exact absurd rfl hne
      | cons d ds' => simp
    have hall : w3.all jsWs = true := by
      simp only [List.all_eq_true]
      exact hw3
    unfold tailWeight
    split
    · next hnil =>
      rw [hdw] at hnil
      cases hnil
    · next sep' rest' hdw' =>
      rw [hdw] at hdw'
      injection hdw' with hsepeq hresteq
      subst hsepeq
      subst hresteq
      have hsb : (decide (sep = ':') || decide (sep = '-')) = true := by
        rcases hsep_left with rfl | rfl <;> simp
      rw [hafter, htake, hdrop, if_pos hsb, if_pos ⟨hlen1, hlen3, hall⟩]

end Part000

namespace Part000

/-- Characterization of the lazy search `findSplit`: a hit is the shortest
nonempty capture — made of `.`-class characters only — whose suffix matches;
a miss means no such capture has a matching suffix. -/
theorem findSplit_spec (cs : List Char) : ∀ (pre : List Char),
    (∀ p w, findSplit pre cs = some (p, w) ↔ ∃ i, 1 ≤ i ∧
      DotList (cs.take i) ∧ tailWeight (cs.drop i) = some w ∧ p = pre ++ cs.take i ∧
      ∀ j, 1 ≤ j → j < i → tailWeight (cs.drop j) = none) ∧
    (findSplit pre cs = none ↔
      ∀ i, 1 ≤ i → DotList (cs.take i) → tailWeight (cs.drop i) = none) := by
  induction cs with
  | nil =>
    intro pre
    constructor
    · intro p w
      constructor
      · intro h
        cases h
      · rintro ⟨i, hi1, hdots, htw, hp, hmin⟩
        rw [List.drop_nil] at htw
        rw [show tailWeight [] = none from rfl] at htw
        cases htw
    · constructor
      · intro _ i _ _
        rw [List.drop_nil]
        rfl
      · intro _
        rfl
  | cons c rest ih =>
    intro pre
    by_cases hdot : jsDot c = true
    · constructor
      · intro p w
        rw [findSplit, if_pos hdot]
        cases htw : tailWeight rest with
        | some w0 =>
          constructor
          · intro h
            simp only [Option.some.injEq, Prod.mk.injEq] at h
            refine ⟨1, le_refl 1, ?_, ?_, ?_, ?_⟩
            · intro x hx
              rw [show (c :: rest).take 1 = [c] from rfl] at hx
              simp only [List.mem_singleton] at hx
              subst hx
              exact hdot
            · show tailWeight rest = some w
              rw [htw, h.2]
            · rw [← h.1]
              rfl
            · intro j hj1 hj2
              omega
          · rintro ⟨i, hi1, hdots, htwi, hp, hmin⟩
            have hieq : i = 1 := by
              by_contra hne
              have h2 : 2 ≤ i := by omega
              have := hmin 1 (le_refl 1) (by omega)
              rw [show (c :: rest).drop 1 = rest from rfl] at this
              rw [htw] at this
              cases this
            subst hieq
            rw [show (c :: rest).drop 1 = rest from rfl] at htwi
            rw [htw] at htwi
            injection htwi with hw0
            subst hw0
            rw [hp]
            rfl
        | none =>
          have hrest := (ih (pre ++ [c])).1 p w
          rw [hrest]
          constructor
          · rintro ⟨i, hi1, hdots, htwi, hp, hmin⟩
            refine ⟨i + 1, by omega, ?_, ?_, ?_, ?_⟩
            · intro x hx
              rw [List.take_succ_cons] at hx
              rcases List.mem_cons.mp hx with rfl | hx2
              · exact hdot
              · exact hdots x hx2
            · show tailWeight ((c :: rest).drop (i + 1)) = some w
              rw [List.drop_succ_cons]
              exact htwi
            · rw [hp, List.take_succ_cons]
              simp
            · intro j hj1 hj2
              cases j with
              | zero => omega
              | succ j2 =>
                cases Nat.eq_zero_or_pos j2 with
                | inl hz =>
                  subst hz
                  show tailWeight ((c :: rest).drop 1) = none
                  rw [show (c :: rest).drop 1 = rest from rfl]
                  exact htw
                | inr hpos =>
                  rw [List.drop_succ_cons]
                  exact hmin j2 hpos (by omega)
          · rintro ⟨i, hi1, hdots, htwi, hp, hmin⟩
            cases i with
            | zero => omega
            | succ i2 =>
              have hi2pos : 1 ≤ i2 := by
                by_contra hz
                have : i2 = 0 := by omega
                subst this
                rw [show (c :: rest).drop 1 = rest from rfl] at htwi
                rw [htw] at htwi
                cases htwi
              refine ⟨i2, hi2pos, ?_, ?_, ?_, ?_⟩
              · intro x hx
                apply hdots
                rw [List.take_succ_cons]
                exact List.mem_cons_of_mem c hx
              · rw [List.drop_succ_cons] at htwi
                exact htwi
              · rw [hp, List.take_succ_cons]
                simp
              · intro j hj1 hj2
                have := hmin (j + 1) (by omega) (by omega)
                rw [List.drop_succ_cons] at this
                exact this
      · rw [findSplit, if_pos hdot]
        cases htw : tailWeight rest with
        | some w0 =>
          constructor
          · intro h
            cases h
          · intro h
            have := h 1 (le_refl 1) (by
              intro x hx
              rw [show (c :: rest).take 1 = [c] from rfl] at hx
              simp only [List.mem_singleton] at hx
              subst hx
              exact hdot)
            rw [show (c :: rest).drop 1 = rest from rfl] at this
            rw [htw] at this
            cases this
        | none =>
          rw [(ih (pre ++ [c])).2]
          constructor
          · intro h i hi1 hdots
            cases i with
            | zero => omega
            | succ i2 =>
              rw [List.drop_succ_cons]
              cases Nat.eq_zero_or_pos i2 with
              | inl hz =>
                subst hz
                simpa using htw
              | inr hpos =>
                refine h i2 hpos ?_
                intro x hx
                apply hdots
                rw [List.take_succ_cons]
                exact List.mem_cons_of_mem c hx
          · intro h i hi1 hd
            have := h (i + 1) (by omega) (by
              intro x hx
              rw [List.take_succ_cons] at hx
              rcases List.mem_cons.mp hx with rfl | hx2
              · exact hdot
              · exact hd x hx2)
            rw [List.drop_succ_cons] at this
            exact this
    · have hmemc : ∀ i, 1 ≤ i → c ∈ (c :: rest).take i := by
        intro i hi1
        cases i with
        | zero => omega
        | succ i2 =>
          rw [List.take_succ_cons]
          exact List.mem_cons_self _ _
      constructor
      · intro p w
        rw [findSplit, if_neg hdot]
        constructor
        · intro h
          cases h
        · rintro ⟨i, hi1, hdots, htwi, hp, hmin⟩
          exact absurd (hdots c (hmemc i hi1)) hdot
      · rw [findSplit, if_neg hdot]
        constructor
        · intro _ i hi1 hdots
          exact absurd (hdots c (hmemc i hi1)) hdot
        · intro _
          rfl

/-- When a minimal weighted decomposition exists, the line parses to the
trimmed label with that weight. -/
theorem parseCriterionLine_weighted (line : String) (i w : Nat)
    (hws : WeightedSplit line i w)
    (hmin : ∀ j w', j < i → ¬ WeightedSplit line j w') :
    parseCriterionLine line =
      { criterion := jsTrim (String.mk (line.data.take i)), weight := some w } := by
  obtain ⟨hi1, hdots, hdecomp⟩ := hws
  have htw : tailWeight (line.data.drop i) = some w := (tailWeight_iff _ _).mpr hdecomp
  have hminTw : ∀ j, 1 ≤ j → j < i → tailWeight (line.data.drop j) = none := by
    intro j hj1 hj2
    cases htwj : tailWeight (line.data.drop j) with
    | none => rfl
    | some w' =>
      have hdj : TailDecomp (line.data.drop j) w' := (tailWeight_iff _ _).mp htwj
      have hdotsj : DotList (line.data.take j) := by
        intro x hx
        apply hdots
        have hjt : (line.data.take i).take j = line.data.take j := by
          rw [List.take_take]
          congr 1
          omega
        rw [← hjt] at hx
        exact List.take_subset _ _ hx
      exact absurd ⟨hj1, hdotsj, hdj⟩ (hmin j w' hj2)
  have := ((findSplit_spec line.data []).1 (line.data.take i) w).mpr
    ⟨i, hi1, hdots, htw, by simp, hminTw⟩
  unfold parseCriterionLine
  rw [this]

/-- When no weighted decomposition exists, the line is a bare criterion. -/
theorem parseCriterionLine_plain (line : String)
    (h : ∀ i w, ¬ WeightedSplit line i w) :
    parseCriterionLine line = { criterion := line, weight := none } := by
  have hnone : findSplit [] line.data = none := by
    rw [(findSplit_spec line.data []).2]
    intro i hi1 hdots
    cases htwj : tailWeight (line.data.drop i) with
    | none => rfl
    | some w' =>
      have hdj : TailDecomp (line.data.drop i) w' := (tailWeight_iff _ _).mp htwj
      exact absurd ⟨hi1, hdots, hdj⟩ (h i w')
  unfold parseCriterionLine
  rw [hnone]

end Part000

namespace MainApp

/-- The comparator relation of line 235 is transitive, in Bool form. -/
theorem byTsDesc_trans : ∀ (a b c : HistoryItem),
    byTsDesc a b = true → byTsDesc b c = true → byTsDesc a c = true := by
  intro a b c hab hbc
  simp only [byTsDesc, decide_eq_true_eq] at *
  omega

/-- The comparator relation is total, in Bool form. -/
theorem byTsDesc_total : ∀ (a b : HistoryItem), (byTsDesc a b || byTsDesc b a) = true := by
  intro a b
  simp only [byTsDesc, Bool.or_eq_true, decide_eq_true_eq]
  omega

/-- Each successful submission leaves the persisted history at no more than
25 entries, sorted most-recent-first by timestamp. -/
theorem successHistoryUpdate_inv (item : HistoryItem) (history : List HistoryItem) :
    (successHistoryUpdate item history).length ≤ 25 ∧
    (successHistoryUpdate item history).Pairwise (fun a b => b.ts ≤ a.ts) := by
  constructor
  · unfold successHistoryUpdate persistHistory
    rw [List.length_take]
    exact min_le_left _ _
  · unfold successHistoryUpdate persistHistory
    apply List.Pairwise.sublist (List.take_sublist _ _)
    have hs : ((item :: history).mergeSort byTsDesc).Pairwise
        (fun a b => byTsDesc a b = true) :=
      List.sorted_mergeSort byTsDesc_trans byTsDesc_total (item :: history)
    exact hs.imp (fun hab => by simpa [byTsDesc] using hab)

end MainApp

namespace Part000

/-- Flattened description of `submit`: one record per control-flow region.
In particular the non-2xx region shows the effect of the inner try/catch of
lines 101–106: the surfaced message is always `HTTP <status>: <body>`,
whether or not the body parsed. -/
theorem submit_characterization (dec a b uc ct : String) (fetch : FetchOutcome) :
    Part000.submit dec a b uc ct fetch =
      if jsTrim dec = "" ∨ jsTrim a = "" ∨ jsTrim b = "" then
        { error := "Please fill Decision, Option A, and Option B.", rawResponse := "",
          result := none, fetched := false, payloadSent := none }
      else
        match fetch with
        | FetchOutcome.failure msg =>
          { error := jsOrS msg "Unknown error", rawResponse := "", result := none,
            fetched := true,
            payloadSent := some (payload (jsTrim dec) (jsTrim a) (jsTrim b) ct uc) }
        | FetchOutcome.success r =>
          if r.ok = false then
            { error := jsOrS ("HTTP " ++ toString r.status ++ ": " ++ r.text) "Unknown error",
              rawResponse := r.text, result := none, fetched := true,
              payloadSent := some (payload (jsTrim dec) (jsTrim a) (jsTrim b) ct uc) }
          else
            match r.parsed with
            | none =>
              { error := jsOrS r.parseError "Unknown error", rawResponse := r.text,
                result := none, fetched := true,
                payloadSent := some (payload (jsTrim dec) (jsTrim a) (jsTrim b) ct uc) }
            | some json =>
              if (json.get "output").truthy = false then
                { error :=
                    "API returned success, but missing \x27output\x27. Check Lambda response shape.",
                  rawResponse := r.text, result := none, fetched := true,
                  payloadSent := some (payload (jsTrim dec) (jsTrim a) (jsTrim b) ct uc) }
              else
                { error := "", rawResponse := r.text, result := some (json.get "output"),
                  fetched := true,
                  payloadSent := some (payload (jsTrim dec) (jsTrim a) (jsTrim b) ct uc) } := by
  by_cases hv : jsTrim dec = "" ∨ jsTrim a = "" ∨ jsTrim b = ""
  · have hb : (jsTrim dec = "" || jsTrim a = "" || jsTrim b = "") = true := by
      rcases hv with h | h | h <;> simp [h]
    rw [if_pos hv]
    unfold Part000.submit
    simp only [hb]
    rfl
  · have hb : (jsTrim dec = "" || jsTrim a = "" || jsTrim b = "") = false := by
      push_neg at hv
      simp [hv.1, hv.2.1, hv.2.2]
    rw [if_neg hv]
    unfold Part000.submit
    simp only [hb]
    cases fetch with
    | failure msg => rfl
    | success r =>
      cases hok : r.ok with
      | false =>
        cases hp : r.parsed with
        | none =>
          simp [jsTry, jsonParse, hp, hok, Bind.bind, Except.bind, Pure.pure, Except.pure]
        | some json =>
          simp [jsTry, jsonParse, hp, hok, Bind.bind, Except.bind, Pure.pure, Except.pure]
      | true =>
        cases hp : r.parsed with
        | none =>
          simp [jsTry, jsonParse, hp, hok, Bind.bind, Except.bind, Pure.pure, Except.pure]
        | some json =>
          cases ht : (json.get "output").truthy with
          | false =>
            simp [jsTry, jsonParse, hp, hok, ht, Bind.bind, Except.bind, Pure.pure,
              Except.pure]
          | true =>
            simp [jsTry, jsonParse, hp, hok, ht, Bind.bind, Except.bind, Pure.pure,
              Except.pure]

end Part000

/-! ## Shared facts for the claims -/

/-- The catch handlers `e?.message || "Unknown error"` never surface an empty
message. -/
theorem jsOrS_unknown_ne (s : String) : jsOrS s "Unknown error" ≠ "" := by
  unfold jsOrS
  split_ifs with h
  · decide
  · exact h

/-- A `null`/`undefined` value is falsy. -/
theorem json_null_not_truthy (j : Json) (h : j.isNull = true) : j.truthy = false := by
  cases j <;> first | rfl | simp [Json.isNull] at h

namespace MainApp

/-- Flattened description of `analyze`: one result record per control-flow
region. -/
theorem analyze_characterization (m : Mode) (e : Explain) (prompt : String)
    (hist : List HistoryItem) (env : AnalyzeEnv) :
    analyze m e prompt hist env =
      if jsTrim prompt = "" then
        { error := "Type your dilemma first.", output := Json.null, history := hist,
          stored := none, fetched := false }
      else
        match env.fetch with
        | FetchOutcome.failure msg =>
          { error := jsOrS msg "Unknown error", output := Json.null, history := hist,
            stored := none, fetched := true }
        | FetchOutcome.success r =>
          match r.parsed with
          | none =>
            { error := jsOrS r.parseError "Unknown error", output := Json.null,
              history := hist, stored := none, fetched := true }
          | some data =>
            if r.ok = false then
              { error := jsOrS (jsOrDisplay (data.get "error")
                  ("HTTP " ++ toString r.status)) "Unknown error",
                output := Json.null, history := hist, stored := none, fetched := true }
            else if data.isNull = true then
              { error := jsOrS typeErrorMsg "Unknown error", output := Json.null,
                history := hist, stored := none, fetched := true }
            else if (data.get "output").isNull = true then
              { error := jsOrS typeErrorMsg "Unknown error", output := data.get "output",
                history := hist, stored := none, fetched := true }
            else
              { error := "",
                output := data.get "output",
                history := successHistoryUpdate
                  { id := env.uuid, ts := env.now, mode := m, explain := e,
                    prompt := jsTrim prompt,
                    summary := (data.get "output").get (summaryKey e),
                    recommendation := (data.get "output").get "recommendation",
                    confidence := (data.get "output").get "confidence",
                    score := (data.get "output").get "decision_score",
                    output := data.get "output" } hist,
                stored := some (successHistoryUpdate
                  { id := env.uuid, ts := env.now, mode := m, explain := e,
                    prompt := jsTrim prompt,
                    summary := (data.get "output").get (summaryKey e),
                    recommendation := (data.get "output").get "recommendation",
                    confidence := (data.get "output").get "confidence",
                    score := (data.get "output").get "decision_score",
                    output := data.get "output" } hist),
                fetched := true } := by
  simp only [analyze]

end MainApp

/-! ## The claims -/

/-- C1: for every input where any of decision, optionA or optionB is empty
after trimming, `submit()` sets the non-empty validation error and returns
without issuing any network call: no fetch happens and no payload is sent. -/
theorem claim_c1_validation_blocks_fetch
    (decision optionA optionB userContext criteriaText : String) (fetch : FetchOutcome)
    (h : jsTrim decision = "" ∨ jsTrim optionA = "" ∨ jsTrim optionB = "") :
    (Part000.submit decision optionA optionB userContext criteriaText fetch).error =
      "Please fill Decision, Option A, and Option B." ∧
    (Part000.submit decision optionA optionB userContext criteriaText fetch).error ≠ "" ∧
    (Part000.submit decision optionA optionB userContext criteriaText fetch).fetched = false ∧
    (Part000.submit decision optionA optionB userContext criteriaText fetch).payloadSent =
      none := by
  rw [Part000.submit_characterization, if_pos h]
  exact ⟨rfl, by decide, rfl, rfl⟩

/-- Witness for C1 at a concrete blank decision. -/
theorem claim_c1_validation_blocks_fetch_witness :
    (Part000.submit " " "a" "b" "" "" (FetchOutcome.failure "x")).error =
      "Please fill Decision, Option A, and Option B." ∧
    (Part000.submit " " "a" "b" "" "" (FetchOutcome.failure "x")).error ≠ "" ∧
    (Part000.submit " " "a" "b" "" "" (FetchOutcome.failure "x")).fetched = false ∧
    (Part000.submit " " "a" "b" "" "" (FetchOutcome.failure "x")).payloadSent = none :=
  claim_c1_validation_blocks_fetch " " "a" "b" "" "" (FetchOutcome.failure "x")
    (Or.inl (by decide))

/-- C2 (code bug): on a mocked 500 response with body containing error
"boom", the main.tsx `analyze` surfaces exactly "boom", but the part_000
`submit` surfaces "HTTP 500: <raw body>" instead of "boom", because the
`throw new Error(j.error || ...)` at line 103 sits inside the inner `try` and
its own bare `catch` at line 104 swallows it and rethrows the generic
message. -/
theorem claim_c2_error_field_surfacing :
    (MainApp.analyze MainApp.Mode.career MainApp.Explain.simple "dilemma" []
      { fetch := FetchOutcome.success
          { ok := false, status := 500, text := "\x7b\"error\":\"boom\"\x7d",
            parsed := some (Json.obj [("error", Json.str "boom")]),
            parseError := "SyntaxError" },
        uuid := "id", now := 0 }).error = "boom" ∧
    (Part000.submit "decision" "optionA" "optionB" "" ""
      (FetchOutcome.success
        { ok := false, status := 500, text := "\x7b\"error\":\"boom\"\x7d",
          parsed := some (Json.obj [("error", Json.str "boom")]),
          parseError := "SyntaxError" })).error = "HTTP 500: \x7b\"error\":\"boom\"\x7d" :=
  ⟨rfl, rfl⟩

/-- C3 counterexample: a 200 response whose output has a null recommendation
and no scores at all is stored as the result with no error surfaced — no
shape check of `recommendation`/`scores` happens anywhere in `submit`. -/
theorem claim_c3_counterexample :
    (Part000.submit "d" "a" "b" "" ""
      (FetchOutcome.success
        { ok := true, status := 200,
          text := "\x7b\"output\":\x7b\"recommendation\":null\x7d\x7d",
          parsed := some (Json.obj [("output",
            Json.obj [("recommendation", Json.null)])]),
          parseError := "SyntaxError" })).result =
      some (Json.obj [("recommendation", Json.null)]) ∧
    (Part000.submit "d" "a" "b" "" ""
      (FetchOutcome.success
        { ok := true, status := 200,
          text := "\x7b\"output\":\x7b\"recommendation\":null\x7d\x7d",
          parsed := some (Json.obj [("output",
            Json.obj [("recommendation", Json.null)])]),
          parseError := "SyntaxError" })).error = "" ∧
    (Json.obj [("recommendation", Json.null)]).get "recommendation" = Json.null :=
  ⟨rfl, rfl, rfl⟩

/-- C3 as amended, over both cited sites.  No shape check of
`recommendation` or `scores` is performed anywhere.  In part_000, the parsed
output is stored (and hence rendered) only if it is present, that is truthy,
and whenever nothing is stored a non-empty error is surfaced.  In main.tsx,
a run that surfaces a non-empty error never leaves a renderable output (the
output cell is falsy), and a 2xx JSON response whose `output` member is
missing or null surfaces a non-empty error; main.tsx performs no further
presence check, so a present falsy output is stored with an empty error. -/
theorem claim_c3_output_presence_only
    (d a b uc ct : String) (fetch : FetchOutcome)
    (m : MainApp.Mode) (e : MainApp.Explain) (p : String)
    (hist : List MainApp.HistoryItem) (env : MainApp.AnalyzeEnv) :
    (∀ out, (Part000.submit d a b uc ct fetch).result = some out → out.truthy = true) ∧
    ((Part000.submit d a b uc ct fetch).result = none →
      (Part000.submit d a b uc ct fetch).error ≠ "") ∧
    ((MainApp.analyze m e p hist env).error ≠ "" →
      (MainApp.analyze m e p hist env).output.truthy = false) ∧
    (∀ (r : HttpResponse) (data : Json), env.fetch = FetchOutcome.success r →
      r.parsed = some data → r.ok = true → data.isNull = false →
      (data.get "output").isNull = true →
      (MainApp.analyze m e p hist env).error ≠ "") := by
  have hsub : (∀ out,
        (Part000.submit d a b uc ct fetch).result = some out → out.truthy = true) ∧
      ((Part000.submit d a b uc ct fetch).result = none →
        (Part000.submit d a b uc ct fetch).error ≠ "") := by
    rw [Part000.submit_characterization]
    by_cases hv : jsTrim d = "" ∨ jsTrim a = "" ∨ jsTrim b = ""
    · rw [if_pos hv]
      exact ⟨fun out hout => Option.noConfusion hout,
        fun _ => show ("Please fill Decision, Option A, and Option B." : String) ≠ "" by decide⟩
    · rw [if_neg hv]
      cases fetch with
      | failure msg =>
        exact ⟨fun out hout => Option.noConfusion hout, fun _ => jsOrS_unknown_ne msg⟩
      | success r =>
        dsimp only
        by_cases hok : r.ok = false
        · rw [if_pos hok]
          exact ⟨fun out hout => Option.noConfusion hout,
            fun _ => jsOrS_unknown_ne ("HTTP " ++ toString r.status ++ ": " ++ r.text)⟩
        · rw [if_neg hok]
          cases hp : r.parsed with
          | none =>
            exact ⟨fun out hout => Option.noConfusion hout,
              fun _ => jsOrS_unknown_ne r.parseError⟩
          | some json =>
            dsimp only
            by_cases ht : (json.get "output").truthy = false
            · rw [if_pos ht]
              exact ⟨fun out hout => Option.noConfusion hout, fun _ =>
                show ("API returned success, but missing \x27output\x27. Check Lambda response shape." : String) ≠ "" by
                  decide⟩
            · rw [if_neg ht]
              simp only [Bool.not_eq_false] at ht
              refine ⟨fun out hout => ?_, fun hnone => Option.noConfusion hnone⟩
              injection hout with he
              rw [← he]
              exact ht
  have hana1 : (MainApp.analyze m e p hist env).error ≠ "" →
      (MainApp.analyze m e p hist env).output.truthy = false := by
    rw [MainApp.analyze_characterization]
    by_cases hp : jsTrim p = ""
    · rw [if_pos hp]
      exact fun _ => rfl
    · rw [if_neg hp]
      cases env.fetch with
      | failure msg => exact fun _ => rfl
      | success r =>
        dsimp only
        cases r.parsed with
        | none => exact fun _ => rfl
        | some data =>
          dsimp only
          by_cases hok : r.ok = false
          · rw [if_pos hok]
            exact fun _ => rfl
          · rw [if_neg hok]
            by_cases hdn : data.isNull = true
            · rw [if_pos hdn]
              exact fun _ => rfl
            · rw [if_neg hdn]
              by_cases hon : (data.get "output").isNull = true
              · rw [if_pos hon]
                exact fun _ => json_null_not_truthy _ hon
              · rw [if_neg hon]
                exact fun herr => absurd rfl herr
  have hana2 : ∀ (r : HttpResponse) (data : Json), env.fetch = FetchOutcome.success r →
      r.parsed = some data → r.ok = true → data.isNull = false →
      (data.get "output").isNull = true →
      (MainApp.analyze m e p hist env).error ≠ "" := by
    intro r data hf hpd hok hdn hon
    rw [MainApp.analyze_characterization]
    by_cases hp : jsTrim p = ""
    · rw [if_pos hp]
      exact show ("Type your dilemma first." : String) ≠ "" by decide
    · rw [if_neg hp, hf]
      dsimp only
      rw [hpd]
      dsimp only
      rw [if_neg (show ¬ (r.ok = false) by rw [hok]; exact fun h => Bool.noConfusion h)]
      rw [if_neg (fun h => by rw [hdn] at h; cases h), if_pos hon]
      exact jsOrS_unknown_ne MainApp.typeErrorMsg
  exact ⟨hsub.1, hsub.2, hana1, hana2⟩

/-- Witness for the amended C3 at concrete inputs: a failed part_000 run, a
truthy stored output, a failed main.tsx run, and a 2xx main.tsx run whose
body lacks the output member. -/
theorem claim_c3_output_presence_only_witness :
    ((Part000.submit " " "a" "b" "" "" (FetchOutcome.failure "x")).error ≠ "") ∧
    ((Json.obj [("recommendation", Json.str "A")]).truthy = true) ∧
    ((MainApp.analyze MainApp.Mode.career MainApp.Explain.simple "q" []
        ⟨FetchOutcome.failure "down", "id", 0⟩).output.truthy = false) ∧
    ((MainApp.analyze MainApp.Mode.career MainApp.Explain.simple "q" []
        ⟨FetchOutcome.success
          { ok := true, status := 200, text := "\x7b\"x\":1\x7d",
            parsed := some (Json.obj [("x", Json.num 1)]), parseError := "" },
          "id", 0⟩).error ≠ "") :=
  ⟨(claim_c3_output_presence_only " " "a" "b" "" "" (FetchOutcome.failure "x")
      MainApp.Mode.career MainApp.Explain.simple "q" []
      ⟨FetchOutcome.failure "x", "id", 0⟩).2.1 rfl,
    (claim_c3_output_presence_only "d" "a" "b" "" ""
      (FetchOutcome.success
        { ok := true, status := 200, text := "",
          parsed := some (Json.obj [("output",
            Json.obj [("recommendation", Json.str "A")])]),
          parseError := "" })
      MainApp.Mode.career MainApp.Explain.simple "q" []
      ⟨FetchOutcome.failure "x", "id", 0⟩).1
      (Json.obj [("recommendation", Json.str "A")]) rfl,
    (claim_c3_output_presence_only "d" "a" "b" "" "" (FetchOutcome.failure "x")
      MainApp.Mode.career MainApp.Explain.simple "q" []
      ⟨FetchOutcome.failure "down", "id", 0⟩).2.2.1 (by decide),
    (claim_c3_output_presence_only "d" "a" "b" "" "" (FetchOutcome.failure "x")
      MainApp.Mode.career MainApp.Explain.simple "q" []
      ⟨FetchOutcome.success
        { ok := true, status := 200, text := "\x7b\"x\":1\x7d",
          parsed := some (Json.obj [("x", Json.num 1)]), parseError := "" },
        "id", 0⟩).2.2.2
      { ok := true, status := 200, text := "\x7b\"x\":1\x7d",
        parsed := some (Json.obj [("x", Json.num 1)]), parseError := "" }
      (Json.obj [("x", Json.num 1)]) rfl rfl rfl rfl rfl⟩

/-- C4 counterexample: on a rejected fetch with message "Failed to fetch",
both variants surface exactly the raw low-level message — no CORS or
connectivity hint is added anywhere. -/
theorem claim_c4_counterexample :
    (Part000.submit "d" "a" "b" "" ""
      (FetchOutcome.failure "Failed to fetch")).error = "Failed to fetch" ∧
    (MainApp.analyze MainApp.Mode.career MainApp.Explain.simple "dilemma" []
      { fetch := FetchOutcome.failure "Failed to fetch", uuid := "id", now := 0 }).error =
      "Failed to fetch" :=
  ⟨rfl, rfl⟩

/-- C4 as amended: on every rejected fetch the surfaced error equals the
rejection message verbatim (with the fallback "Unknown error" when that
message is empty); no CORS or connectivity hint is added. -/
theorem claim_c4_raw_network_message
    (d a b uc ct msg : String)
    (h1 : jsTrim d ≠ "") (h2 : jsTrim a ≠ "") (h3 : jsTrim b ≠ "")
    (m : MainApp.Mode) (e : MainApp.Explain) (prompt : String)
    (hist : List MainApp.HistoryItem) (uuid : String) (now : Int)
    (hpr : jsTrim prompt ≠ "") :
    (Part000.submit d a b uc ct (FetchOutcome.failure msg)).error =
      jsOrS msg "Unknown error" ∧
    (MainApp.analyze m e prompt hist
      { fetch := FetchOutcome.failure msg, uuid := uuid, now := now }).error =
      jsOrS msg "Unknown error" := by
  have hv : ¬ (jsTrim d = "" ∨ jsTrim a = "" ∨ jsTrim b = "") := by
    push_neg
    exact ⟨h1, h2, h3⟩
  rw [Part000.submit_characterization, if_neg hv, MainApp.analyze_characterization,
    if_neg hpr]
  exact ⟨rfl, rfl⟩

/-- Witness for C4 as amended at the concrete "Failed to fetch" message. -/
theorem claim_c4_raw_network_message_witness :
    (Part000.submit "d" "a" "b" "" ""
      (FetchOutcome.failure "Failed to fetch")).error =
      jsOrS "Failed to fetch" "Unknown error" ∧
    (MainApp.analyze MainApp.Mode.career MainApp.Explain.simple "dilemma" []
      { fetch := FetchOutcome.failure "Failed to fetch", uuid := "id", now := 0 }).error =
      jsOrS "Failed to fetch" "Unknown error" :=
  claim_c4_raw_network_message "d" "a" "b" "" "" "Failed to fetch" (by decide) (by decide)
    (by decide) MainApp.Mode.career MainApp.Explain.simple "dilemma" [] "id" 0 (by decide)

/-- C5: a 2xx response whose body is not valid JSON makes both variants
surface a non-empty (parse-failure) error with nothing stored or rendered;
the submission is a total function of its inputs, so it never ends in an
uncaught exception. -/
theorem claim_c5_malformed_body_caught
    (d a b uc ct : String) (r : HttpResponse)
    (h1 : jsTrim d ≠ "") (h2 : jsTrim a ≠ "") (h3 : jsTrim b ≠ "")
    (hok : r.ok = true) (hp : r.parsed = none)
    (m : MainApp.Mode) (e : MainApp.Explain) (prompt : String)
    (hist : List MainApp.HistoryItem) (uuid : String) (now : Int)
    (hpr : jsTrim prompt ≠ "") :
    (Part000.submit d a b uc ct (FetchOutcome.success r)).error ≠ "" ∧
    (Part000.submit d a b uc ct (FetchOutcome.success r)).result = none ∧
    (MainApp.analyze m e prompt hist
      { fetch := FetchOutcome.success r, uuid := uuid, now := now }).error ≠ "" ∧
    (MainApp.analyze m e prompt hist
      { fetch := FetchOutcome.success r, uuid := uuid, now := now }).output = Json.null := by
  have hv : ¬ (jsTrim d = "" ∨ jsTrim a = "" ∨ jsTrim b = "") := by
    push_neg
    exact ⟨h1, h2, h3⟩
  have hnotok : ¬ (r.ok = false) := by
    rw [hok]
    decide
  rw [Part000.submit_characterization, if_neg hv, MainApp.analyze_characterization,
    if_neg hpr]
  dsimp only
  rw [if_neg hnotok, hp]
  exact ⟨jsOrS_unknown_ne r.parseError, rfl, jsOrS_unknown_ne r.parseError, rfl⟩

/-- Witness for C5 at a concrete 200 response with body "not json". -/
theorem claim_c5_malformed_body_caught_witness :
    (Part000.submit "d" "a" "b" "" ""
      (FetchOutcome.success
        { ok := true, status := 200, text := "not json", parsed := none,
          parseError := "Unexpected token" })).error ≠ "" ∧
    (Part000.submit "d" "a" "b" "" ""
      (FetchOutcome.success
        { ok := true, status := 200, text := "not json", parsed := none,
          parseError := "Unexpected token" })).result = none ∧
    (MainApp.analyze MainApp.Mode.career MainApp.Explain.simple "dilemma" []
      { fetch := FetchOutcome.success
          { ok := true, status := 200, text := "not json", parsed := none,
            parseError := "Unexpected token" },
        uuid := "id", now := 0 }).error ≠ "" ∧
    (MainApp.analyze MainApp.Mode.career MainApp.Explain.simple "dilemma" []
      { fetch := FetchOutcome.success
          { ok := true, status := 200, text := "not json", parsed := none,
            parseError := "Unexpected token" },
        uuid := "id", now := 0 }).output = Json.null :=
  claim_c5_malformed_body_caught "d" "a" "b" "" ""
    { ok := true, status := 200, text := "not json", parsed := none,
      parseError := "Unexpected token" }
    (by decide) (by decide) (by decide) rfl rfl
    MainApp.Mode.career MainApp.Explain.simple "dilemma" [] "id" 0 (by decide)

/-- C6: after any nonempty sequence of successful submissions, each of which
updates the history by `persistHistory([item, ...history].sort((a, b) =>
b.ts - a.ts))`, the persisted history has at most 25 entries and is ordered
most-recent-first by timestamp. -/
theorem claim_c6_history_cap_and_order
    (subs : List MainApp.HistoryItem) (h0 : List MainApp.HistoryItem) (hne : subs ≠ []) :
    (subs.foldl (fun h it => MainApp.successHistoryUpdate it h) h0).length ≤ 25 ∧
    (subs.foldl (fun h it => MainApp.successHistoryUpdate it h) h0).Pairwise
      (fun a b => b.ts ≤ a.ts) := by
  rcases List.eq_nil_or_concat subs with rfl | ⟨ys, y, rfl⟩
  · exact absurd rfl hne
  · rw [List.concat_eq_append, List.foldl_append]
    exact MainApp.successHistoryUpdate_inv y _

/-- Witness for C6 after one concrete successful submission. -/
theorem claim_c6_history_cap_and_order_witness :
    (([(⟨"id", 5, MainApp.Mode.career, MainApp.Explain.simple, "p", Json.null, Json.null,
        Json.null, Json.null, Json.null⟩ : MainApp.HistoryItem)]).foldl
      (fun h it => MainApp.successHistoryUpdate it h) []).length ≤ 25 ∧
    (([(⟨"id", 5, MainApp.Mode.career, MainApp.Explain.simple, "p", Json.null, Json.null,
        Json.null, Json.null, Json.null⟩ : MainApp.HistoryItem)]).foldl
      (fun h it => MainApp.successHistoryUpdate it h) []).Pairwise
      (fun a b => b.ts ≤ a.ts) :=
  claim_c6_history_cap_and_order _ [] (List.cons_ne_nil _ _)

/-- C7: encoding then decoding the shareable-link state is the identity: for
every state (mode, explain, prompt), `decodeState (encodeState st)` recovers
exactly `st`, so the state base64url-encoded into the URL query parameter
prefills the form with the same mode, explain and prompt on load. -/
theorem claim_c7_share_link_roundtrip (st : MainApp.ShareState) :
    MainApp.decodeState (MainApp.encodeState st) = some st := by
  have hbytes : ∀ b ∈ MainApp.utf8Encode (MainApp.stringifyState st), b < 256 := by
    intro b hb
    rw [MainApp.utf8Encode] at hb
    obtain ⟨c, _, hc⟩ := List.mem_flatMap.mp hb
    exact MainApp.utf8Char_lt c b hc
  have h1 := MainApp.atob_b64urlOf (MainApp.utf8Encode (MainApp.stringifyState st)) hbytes
  have hdata : (MainApp.encodeState st).data =
      MainApp.b64urlOf (MainApp.utf8Encode (MainApp.stringifyState st)) := rfl
  have hlen2 : (MainApp.encodeState st).length =
      (MainApp.b64urlOf (MainApp.utf8Encode (MainApp.stringifyState st))).length := rfl
  unfold MainApp.decodeState
  rw [hdata, hlen2]
  simp only [h1, MainApp.utf8Decode_encode, MainApp.jsonParse_stringifyState,
    MainApp.stateOfJson_emit]

/-- C8: criteria parsing.  (1) The criteria field is undefined exactly when
no non-blank trimmed line remains; (2) otherwise each non-blank line is
parsed independently; (3) a line with a (shortest-label) decomposition into
a line-terminator-free label (the `.` class of the regex), `:` or `-`
separator and a one-to-three-digit weight yields the
trimmed label with that weight; (4) any other line yields the bare line with
no weight; (5) with no non-blank lines, the request payload carries no
`criteria` key at all. -/
theorem claim_c8_criteria_parsing (text : String) :
    (Part000.parsedCriteria text = none ↔ Part000.nonBlankLines text = []) ∧
    (∀ cs, Part000.parsedCriteria text = some cs →
      cs = (Part000.nonBlankLines text).map Part000.parseCriterionLine) ∧
    (∀ line i w, Part000.WeightedSplit line i w →
      (∀ j w', j < i → ¬ Part000.WeightedSplit line j w') →
      Part000.parseCriterionLine line =
        { criterion := jsTrim (String.mk (line.data.take i)), weight := some w }) ∧
    (∀ line, (∀ i w, ¬ Part000.WeightedSplit line i w) →
      Part000.parseCriterionLine line = { criterion := line, weight := none }) ∧
    (∀ d a b uc, Part000.nonBlankLines text = [] →
      Part000.payload d a b text uc =
        Json.obj [("decision", Json.str d), ("optionA", Json.str a),
          ("optionB", Json.str b), ("userContext", Json.str (jsTrim uc))]) := by
  refine ⟨?_, ?_, ?_, ?_, ?_⟩
  · constructor
    · intro h
      by_contra hne
      unfold Part000.parsedCriteria at h
      rw [if_neg hne] at h
      cases h
    · intro h
      unfold Part000.parsedCriteria
      rw [if_pos h]
  · intro cs hcs
    by_cases hl : Part000.nonBlankLines text = []
    · have hnone : Part000.parsedCriteria text = none := by
        unfold Part000.parsedCriteria
        rw [if_pos hl]
      rw [hnone] at hcs
      cases hcs
    · have hsome : Part000.parsedCriteria text =
          some ((Part000.nonBlankLines text).map Part000.parseCriterionLine) := by
        unfold Part000.parsedCriteria
        rw [if_neg hl]
      rw [hsome] at hcs
      injection hcs with he
      exact he.symm
  · intro line i w hws hmin
    exact Part000.parseCriterionLine_weighted line i w hws hmin
  · intro line h
    exact Part000.parseCriterionLine_plain line h
  · intro d a b uc h
    have hnone : Part000.parsedCriteria text = none := by
      unfold Part000.parsedCriteria
      rw [if_pos h]
    unfold Part000.payload
    rw [hnone]
    rfl

/-- Witness for C8: a weighted line, a plain line, a blank criteria text and
the payload without a criteria key, all concrete. -/
theorem claim_c8_criteria_parsing_witness :
    Part000.parseCriterionLine "a:1" =
      { criterion := jsTrim (String.mk ("a:1".data.take 1)), weight := some 1 } ∧
    Part000.parseCriterionLine "hello" = { criterion := "hello", weight := none } ∧
    Part000.parsedCriteria " \n " = none ∧
    Part000.payload "d" "a" "b" " \n " "" =
      Json.obj [("decision", Json.str "d"), ("optionA", Json.str "a"),
        ("optionB", Json.str "b"), ("userContext", Json.str (jsTrim ""))] := by
  refine ⟨?_, ?_, ?_, ?_⟩
  · refine (claim_c8_criteria_parsing "").2.2.1 "a:1" 1 1 ⟨le_refl 1, ?_, ?_⟩ ?_
    · intro c hc
      rw [show "a:1".data.take 1 = ['a'] from rfl] at hc
      simp only [List.mem_singleton] at hc
      subst hc
      decide
    · refine ⟨[], ':', [], ['1'], [], ?_, ?_, Or.inl rfl, ?_, ?_, ?_, ?_, ?_, ?_⟩
      · rfl
      · intro c hc
        cases hc
      · intro c hc
        cases hc
      · decide
      · decide
      · intro c hc
        simp only [List.mem_singleton] at hc
        subst hc
        decide
      · intro c hc
        cases hc
      · rfl
    · intro j w' hj hws
      exact absurd hws.1 (by omega)
  · refine (claim_c8_criteria_parsing "").2.2.2.1 "hello" ?_
    rintro i w ⟨hi1, hdot, w1, sep, w2, ds, w3, heq, hw1, hsep, hw2, hne, hlen3, hds, hw3, hwv⟩
    have hmem : sep ∈ "hello".data.drop i := by
      rw [heq]
      exact List.mem_append_right _ (List.mem_cons_self _ _)
    have hmem2 : sep ∈ "hello".data := List.mem_of_mem_drop hmem
    rw [show "hello".data = ['h', 'e', 'l', 'l', 'o'] from rfl] at hmem2
    rcases hsep with rfl | rfl
    · simp at hmem2
    · simp at hmem2
  · exact (claim_c8_criteria_parsing " \n ").1.mpr (by decide)
  · exact (claim_c8_criteria_parsing " \n ").2.2.2.2 "d" "a" "b" "" (by decide)

/-- C9: a history entry is persisted only on success: whenever `analyze` ends
with a non-empty error — validation failure, network failure, malformed body,
non-2xx status or missing output — the history state and the localStorage
entry are left untouched, and whenever something is written the run ended
with no error. -/
theorem claim_c9_history_frame
    (m : MainApp.Mode) (e : MainApp.Explain) (prompt : String)
    (hist : List MainApp.HistoryItem) (env : MainApp.AnalyzeEnv) :
    ((MainApp.analyze m e prompt hist env).error ≠ "" →
      (MainApp.analyze m e prompt hist env).history = hist ∧
      (MainApp.analyze m e prompt hist env).stored = none) ∧
    ((MainApp.analyze m e prompt hist env).stored ≠ none →
      (MainApp.analyze m e prompt hist env).error = "") := by
  rw [MainApp.analyze_characterization]
  by_cases hp : jsTrim prompt = ""
  · rw [if_pos hp]
    exact ⟨fun _ => ⟨rfl, rfl⟩, fun habs => absurd rfl habs⟩
  · rw [if_neg hp]
    cases env.fetch with
    | failure msg =>
      exact ⟨fun _ => ⟨rfl, rfl⟩, fun habs => absurd rfl habs⟩
    | success r =>
      dsimp only
      cases r.parsed with
      | none =>
        exact ⟨fun _ => ⟨rfl, rfl⟩, fun habs => absurd rfl habs⟩
      | some data =>
        dsimp only
        by_cases hok : r.ok = false
        · rw [if_pos hok]
          exact ⟨fun _ => ⟨rfl, rfl⟩, fun habs => absurd rfl habs⟩
        · rw [if_neg hok]
          by_cases hnull : data.isNull = true
          · rw [if_pos hnull]
            exact ⟨fun _ => ⟨rfl, rfl⟩, fun habs => absurd rfl habs⟩
          · rw [if_neg hnull]
            by_cases hout : (data.get "output").isNull = true
            · rw [if_pos hout]
              exact ⟨fun _ => ⟨rfl, rfl⟩, fun habs => absurd rfl habs⟩
            · rw [if_neg hout]
              exact ⟨fun herr => absurd rfl herr, fun _ => rfl⟩

/-- Witness for C9 at a concrete failing fetch with a nonempty starting
history. -/
theorem claim_c9_history_frame_witness :
    (MainApp.analyze MainApp.Mode.career MainApp.Explain.simple "dilemma"
      [(⟨"old", 3, MainApp.Mode.money, MainApp.Explain.normal, "q", Json.null, Json.null,
        Json.null, Json.null, Json.null⟩ : MainApp.HistoryItem)]
      { fetch := FetchOutcome.failure "down", uuid := "id", now := 9 }).history =
      [(⟨"old", 3, MainApp.Mode.money, MainApp.Explain.normal, "q", Json.null, Json.null,
        Json.null, Json.null, Json.null⟩ : MainApp.HistoryItem)] ∧
    (MainApp.analyze MainApp.Mode.career MainApp.Explain.simple "dilemma"
      [(⟨"old", 3, MainApp.Mode.money, MainApp.Explain.normal, "q", Json.null, Json.null,
        Json.null, Json.null, Json.null⟩ : MainApp.HistoryItem)]
      { fetch := FetchOutcome.failure "down", uuid := "id", now := 9 }).stored = none :=
  (claim_c9_history_frame MainApp.Mode.career MainApp.Explain.simple "dilemma"
    [(⟨"old", 3, MainApp.Mode.money, MainApp.Explain.normal, "q", Json.null, Json.null,
      Json.null, Json.null, Json.null⟩ : MainApp.HistoryItem)]
    { fetch := FetchOutcome.failure "down", uuid := "id", now := 9 }).1 (by decide)

/-- C10: the decision-score meter clamps its input: for every integer value
the displayed score and rendered bar width equal max(0, min(100, value)),
hence always lie within 0–100; the part_002 meter computes the same
function. -/
theorem claim_c10_meter_clamps (value : Int) :
    MainApp.meterValue value = max 0 (min 100 value) ∧
    0 ≤ MainApp.meterValue value ∧ MainApp.meterValue value ≤ 100 ∧
    Part002.meterClamped value = MainApp.meterValue value := by
  unfold MainApp.meterValue MainApp.clampDefault MainApp.clamp Part002.meterClamped
  refine ⟨rfl, ?_, ?_, rfl⟩ <;> omega
